import Mathlib

/-
  Shallow embedding of the Sudoku solver from src/main.rs
  (constraint propagation / pure-negative deduction / backtracking).

  Cells, boards and all solver operations are translated directly from the
  Rust source.  The board is a list of 81 cells, row-major.  The Rust
  functions that can panic are modelled with Option / explicit result
  types; the unbounded while-loop and the recursive backtracking search
  are modelled with an explicit fuel parameter, and the development proves
  that the chosen fuel bounds are never exhausted (termination).
-/

/-- The four cell states from the Rust enum Cell. -/
inductive Cell where
  | Empty : Cell
  | Fixed : Nat → Cell
  | Collapsed : Nat → Cell
  | Superposition : List Bool → Cell
deriving DecidableEq, Repr

def BOARD_SEP : Nat := 3
def BOARD_LEN : Nat := BOARD_SEP * BOARD_SEP
def BOARD_SIZE : Nat := BOARD_LEN * BOARD_LEN

/-- Cell::count_superstates: number of true candidate flags, None for
non-Superposition cells. -/
def Cell.count_superstates : Cell → Option Nat
  | Cell.Superposition s => some (s.countP (fun x => x))
  | _ => none

/-- Cell::collapse: Some(idx+1) when exactly one candidate flag is true. -/
def Cell.collapse : Cell → Option Nat
  | Cell.Superposition s =>
      let cv := s.enum.foldl
        (fun (cv : Nat × Nat) (p : Nat × Bool) =>
          if p.2 then (cv.1 + 1, p.1 + 1) else cv) (0, 0)
      if cv.1 = 1 then some cv.2 else none
  | _ => none

/-- Recogniser for the Superposition constructor. -/
def isSuper : Cell → Bool
  | Cell.Superposition _ => true
  | _ => false

/-- Clearing one candidate flag of a cell; non-Superposition cells are
unchanged (the Rust code only writes the flag under an if-let). -/
def Cell.clearBit : Cell → Nat → Cell
  | Cell.Superposition s, k => Cell.Superposition (s.set k false)
  | c, _ => c

/-- The board: a row-major list of cells (81 entries in every reachable
state, matching the Rust fixed-size array). -/
structure Sudoku where
  grid : List Cell
deriving DecidableEq, Repr

def Sudoku.getCell (b : Sudoku) (i : Nat) : Cell := b.grid.getD i Cell.Empty

def Sudoku.setCell (b : Sudoku) (i : Nat) (c : Cell) : Sudoku := ⟨b.grid.set i c⟩

def Sudoku.coord_to_idx (rc : Nat × Nat) : Nat := rc.1 * BOARD_LEN + rc.2

def Sudoku.idx_to_coord (idx : Nat) : Nat × Nat := (idx / BOARD_LEN, idx % BOARD_LEN)

def Sudoku.row_idx (idx : Nat) : Nat := (idx / BOARD_LEN) * BOARD_LEN

def Sudoku.col_idx (idx : Nat) : Nat := idx % BOARD_LEN

def Sudoku.subsection_idx (idx : Nat) : Nat :=
  let rc := Sudoku.idx_to_coord idx
  (rc.1 - rc.1 % BOARD_SEP) * BOARD_LEN + (rc.2 - rc.2 % BOARD_SEP)

/-- The row peer indices scanned by the Rust loops
(row_idx .. row_idx + BOARD_LEN). -/
def rowIndices (idx : Nat) : List Nat :=
  (List.range BOARD_LEN).map (fun j => Sudoku.row_idx idx + j)

/-- The column peer indices ((col_idx .. BOARD_SIZE).step_by(BOARD_LEN)):
col_idx < BOARD_LEN always holds, so these are col_idx + BOARD_LEN * j for
j < BOARD_LEN. -/
def colIndices (idx : Nat) : List Nat :=
  (List.range BOARD_LEN).map (fun j => Sudoku.col_idx idx + BOARD_LEN * j)

/-- The 3x3 subsection peer indices. -/
def boxIndices (idx : Nat) : List Nat :=
  let rc := Sudoku.idx_to_coord (Sudoku.subsection_idx idx)
  (List.range BOARD_SEP).flatMap (fun dr =>
    (List.range BOARD_SEP).map (fun dc =>
      Sudoku.coord_to_idx (rc.1 + dr, rc.2 + dc)))

/-- Clear candidate flag k of cell i (only Superposition cells change). -/
def Sudoku.clearCand (b : Sudoku) (i : Nat) (k : Nat) : Sudoku :=
  match b.getCell i with
  | Cell.Superposition s => b.setCell i (Cell.Superposition (s.set k false))
  | _ => b

/-- The body of Sudoku::propagate once the determined value n is known:
clear flag n-1 along the row, the column and the subsection. -/
def Sudoku.propagateFrom (b : Sudoku) (idx : Nat) (n : Nat) : Sudoku :=
  let b1 := (rowIndices idx).foldl (fun b i => b.clearCand i (n - 1)) b
  let b2 := (colIndices idx).foldl (fun b i => b.clearCand i (n - 1)) b1
  (boxIndices idx).foldl (fun b i => b.clearCand i (n - 1)) b2

/-- Sudoku::propagate. -/
def Sudoku.propagate (b : Sudoku) (idx : Nat) : Sudoku :=
  match b.getCell idx with
  | Cell.Fixed n => b.propagateFrom idx n
  | Cell.Collapsed n => b.propagateFrom idx n
  | _ => b

/-- Whether cell i is a Superposition whose candidate flag k is true. -/
def Sudoku.candAt (b : Sudoku) (i : Nat) (k : Nat) : Bool :=
  match b.getCell i with
  | Cell.Superposition s => s.getD k false
  | _ => false

/-- The num_alternatives count of Sudoku::solve_pure_negative over one peer
group: other Superposition cells that still admit candidate k. -/
def Sudoku.numAlternatives (b : Sudoku) (idxs : List Nat) (idx : Nat) (k : Nat) : Nat :=
  (idxs.filter (fun i => i != idx && b.candAt i k)).length

/-- One candidate step of Sudoku::solve_pure_negative: row group is checked
before column before subsection; the first group with no alternative
collapses the cell to k+1. -/
def Sudoku.pureNegativeAt (b : Sudoku) (idx : Nat) (k : Nat) : Option Cell :=
  if b.numAlternatives (rowIndices idx) idx k = 0 then some (Cell.Collapsed (k + 1))
  else if b.numAlternatives (colIndices idx) idx k = 0 then some (Cell.Collapsed (k + 1))
  else if b.numAlternatives (boxIndices idx) idx k = 0 then some (Cell.Collapsed (k + 1))
  else none

/-- Sudoku::solve_pure_negative: iterate over the still-true candidates of
the cell in ascending order and stop at the first successful deduction. -/
def Sudoku.solve_pure_negative (b : Sudoku) (idx : Nat) : Sudoku :=
  match b.getCell idx with
  | Cell.Superposition s =>
      match (List.range BOARD_LEN).findSome? (fun k =>
          if s.getD k false then b.pureNegativeAt idx k else none) with
      | some c => b.setCell idx c
      | none => b
  | _ => b

/-- Sudoku::is_solved: every cell is Fixed or Collapsed. -/
def Sudoku.is_solved (b : Sudoku) : Bool :=
  b.grid.all (fun c =>
    match c with
    | Cell.Fixed _ => true
    | Cell.Collapsed _ => true
    | _ => false)

/-- One cell of Sudoku::initialize_superpositions; the unreachable! branch
for Collapsed and Superposition cells is modelled as None. -/
def initCell : Cell → Option Cell
  | Cell.Fixed n => some (Cell.Fixed n)
  | Cell.Empty => some (Cell.Superposition (List.replicate 9 true))
  | _ => none

/-- initialize_superpositions over the cell list, threading the panic. -/
def initCells : List Cell → Option (List Cell)
  | [] => some []
  | c :: rest =>
      match initCell c with
      | none => none
      | some c2 =>
          match initCells rest with
          | none => none
          | some rest2 => some (c2 :: rest2)

/-- Sudoku::initialize_superpositions (None models the unreachable! panic). -/
def Sudoku.initialize_superpositions (b : Sudoku) : Option Sudoku :=
  (initCells b.grid).map Sudoku.mk

/-- Sudoku::from_zero_grid: 0 becomes Empty, anything else Fixed. -/
def Sudoku.from_zero_grid (g : List (List Nat)) : Sudoku :=
  ⟨g.flatten.map (fun v => if v = 0 then Cell.Empty else Cell.Fixed v)⟩

/-- The first for-loop of Sudoku::solve: solve_pure_negative then propagate
for every index in order. -/
def Sudoku.propagationPass (b : Sudoku) : Sudoku :=
  (List.range BOARD_SIZE).foldl (fun b idx => (b.solve_pure_negative idx).propagate idx) b

/-- Result of the second (collapse) for-loop of Sudoku::solve: aborted
models the early return on a zero-candidate cell. -/
inductive PassResult where
  | aborted (b : Sudoku)
  | done (b : Sudoku) (collapsed : Bool)
deriving DecidableEq, Repr

/-- One cell of the collapse scan: a Superposition with exactly one
candidate becomes Collapsed, followed immediately by deduction and
propagation for that index; the Bool records whether a collapse happened. -/
def Sudoku.collapseStep (b : Sudoku) (collapsed : Bool) (idx : Nat) : Sudoku × Bool :=
  match b.getCell idx with
  | Cell.Superposition s =>
      match Cell.collapse (Cell.Superposition s) with
      | some value =>
          (((b.setCell idx (Cell.Collapsed value)).solve_pure_negative idx).propagate idx,
            true)
      | none => (b, collapsed)
  | _ => (b, collapsed)

/-- The collapse scan of Sudoku::solve: single-candidate cells become
Collapsed, and any cell left with zero candidates aborts the whole solve. -/
def Sudoku.collapsePass : Sudoku → Bool → List Nat → PassResult
  | b, collapsed, [] => PassResult.done b collapsed
  | b, collapsed, idx :: rest =>
      let step := b.collapseStep collapsed idx
      if (Cell.count_superstates (step.1.getCell idx)).getD 1 = 0 then
        PassResult.aborted step.1
      else Sudoku.collapsePass step.1 step.2 rest

/-- Result of the while-loop of Sudoku::solve. -/
inductive LoopResult where
  | outOfFuel
  | aborted (b : Sudoku)
  | finished (b : Sudoku)
deriving DecidableEq, Repr

/-- One iteration of the while-loop of Sudoku::solve: check the guard, run
the propagate/deduce pass and the collapse pass, update the
no-collapse counter, and either exit, abort, or continue (recur). -/
def Sudoku.loopBody (b : Sudoku) (iters_without_collapse : Nat)
    (recur : Sudoku → Nat → LoopResult) : LoopResult :=
  if b.is_solved then LoopResult.finished b
  else
    match (b.propagationPass).collapsePass false (List.range BOARD_SIZE) with
    | PassResult.aborted b2 => LoopResult.aborted b2
    | PassResult.done b2 collapsed =>
        let iters := if collapsed then 0 else iters_without_collapse + 1
        if iters > 3 then LoopResult.finished b2
        else recur b2 iters

/-- The while-loop of Sudoku::solve, with explicit fuel (written with
Nat.rec so that it unfolds by plain iota reduction). -/
def Sudoku.solveLoop : Nat → Sudoku → Nat → LoopResult :=
  Nat.rec (motive := fun _ => Sudoku → Nat → LoopResult)
    (fun _ _ => LoopResult.outOfFuel)
    (fun _ recur b iters_without_collapse => Sudoku.loopBody b iters_without_collapse recur)

/-- Sufficient fuel for the while-loop on an 81-cell board (proved below). -/
def loopFuel : Nat := 410

/-- Result of Sudoku::solve: panicked models the expect / unreachable!
panics of the backtracking stage, outOfFuel is the fuel marker. -/
inductive SolveResult where
  | outOfFuel
  | panicked
  | ok (b : Sudoku)
deriving DecidableEq, Repr

/-- The candidate values still marked true, as idx+1 in ascending order
(the enumerate/filter_map of the backtracking loop). -/
def candidateValues : List Bool → Nat → List Nat
  | [], _ => []
  | v :: rest, k =>
      if v then (k + 1) :: candidateValues rest (k + 1)
      else candidateValues rest (k + 1)

/-- First index whose cell is a Superposition (the position() call). -/
def findSuperIdx : List Cell → Nat → Option Nat
  | [], _ => none
  | c :: rest, k => if isSuper c then some k else findSuperIdx rest (k + 1)

def Sudoku.findSuperposition (b : Sudoku) : Option Nat := findSuperIdx b.grid 0

/-- The backtracking candidate loop of Sudoku::solve: clone the board with
the cell collapsed to each candidate in turn, solve the clone recursively
(the solver function is passed in), and adopt the first solved clone. -/
def tryCandidates (solver : Sudoku → SolveResult) (b : Sudoku) (idx : Nat) :
    List Nat → SolveResult
  | [] => SolveResult.ok b
  | v :: vs =>
      match solver (b.setCell idx (Cell.Collapsed v)) with
      | SolveResult.outOfFuel => SolveResult.outOfFuel
      | SolveResult.panicked => SolveResult.panicked
      | SolveResult.ok c =>
          if c.is_solved then SolveResult.ok c
          else tryCandidates solver b idx vs

/-- The backtracking stage once the first Superposition index is known:
read its candidate list (unreachable! if the cell is not a Superposition,
modelled as panicked) and try the candidates in ascending order. -/
def Sudoku.backtrackAt (b2 : Sudoku) (idx : Nat) (recur : Sudoku → SolveResult) :
    SolveResult :=
  match b2.getCell idx with
  | Cell.Superposition s => tryCandidates recur b2 idx (candidateValues s 0)
  | _ => SolveResult.panicked

/-- The backtracking stage of Sudoku::solve: position() of the first
Superposition cell (expect-panic, modelled as panicked, when there is
none), then try its candidates. -/
def Sudoku.backtrack (b2 : Sudoku) (recur : Sudoku → SolveResult) : SolveResult :=
  match b2.findSuperposition with
  | none => SolveResult.panicked
  | some idx => Sudoku.backtrackAt b2 idx recur

/-- The body of Sudoku::solve: run the while-loop, then if the board is
still unsolved backtrack over the candidates of the first Superposition
cell, solving each clone with the solver passed as recur. -/
def Sudoku.solveBody (b : Sudoku) (recur : Sudoku → SolveResult) : SolveResult :=
  match Sudoku.solveLoop loopFuel b 0 with
  | LoopResult.outOfFuel => SolveResult.outOfFuel
  | LoopResult.aborted b2 => SolveResult.ok b2
  | LoopResult.finished b2 =>
      if b2.is_solved then SolveResult.ok b2 else Sudoku.backtrack b2 recur

/-- Sudoku::solve with explicit recursion fuel (written with Nat.rec so
that it unfolds by plain iota reduction). -/
def Sudoku.solveAux : Nat → Sudoku → SolveResult :=
  Nat.rec (motive := fun _ => Sudoku → SolveResult)
    (fun _ => SolveResult.outOfFuel)
    (fun _ recur b => Sudoku.solveBody b recur)

/-- Sufficient recursion fuel for an 81-cell board (proved below). -/
def solveFuel : Nat := 82

/-- Sudoku::solve. -/
def Sudoku.solve (b : Sudoku) : SolveResult := Sudoku.solveAux solveFuel b

/-- Number of Superposition cells of a board. -/
def Sudoku.numSuper (b : Sudoku) : Nat := b.grid.countP isSuper

/-- The determined (Fixed or Collapsed) values of row r, left to right. -/
def Sudoku.rowVals (b : Sudoku) (r : Nat) : List Nat :=
  (rowIndices (r * BOARD_LEN)).filterMap (fun i =>
    match b.getCell i with
    | Cell.Fixed n => some n
    | Cell.Collapsed n => some n
    | _ => none)

/-- The determined values of the peers (row, column, subsection) of a cell,
with multiplicity over the three scans, excluding the cell itself. -/
def Sudoku.peerDigits (b : Sudoku) (idx : Nat) : List Nat :=
  ((rowIndices idx ++ colIndices idx ++ boxIndices idx).filterMap (fun i =>
    if i = idx then none
    else
      match b.getCell i with
      | Cell.Fixed n => some n
      | Cell.Collapsed n => some n
      | _ => none))

/-- Clearing candidate flag k at every index of a list in order (the shape
shared by the three peer loops of propagate). -/
def clearList (b : Sudoku) (L : List Nat) (k : Nat) : Sudoku :=
  L.foldl (fun b i => b.clearCand i k) b

/-- All peer indices visited by propagate, in visiting order. -/
def peersList (idx : Nat) : List Nat :=
  rowIndices idx ++ colIndices idx ++ boxIndices idx

/-- The total counterpart of initCell on its non-panicking inputs. -/
def initFull : Cell → Cell
  | Cell.Empty => Cell.Superposition (List.replicate 9 true)
  | c => c

/-- Every Fixed cell of the first board is the same Fixed cell in the
second board. -/
def FixedPres (b b2 : Sudoku) : Prop :=
  ∀ i n, b.getCell i = Cell.Fixed n → b2.getCell i = Cell.Fixed n

/-- No cell of the board is Empty (holds after initialize_superpositions). -/
def Sudoku.noEmpty (b : Sudoku) : Prop := ∀ c ∈ b.grid, c ≠ Cell.Empty

/-- A 9x9 input grid whose entries are all the given 1 (duplicated givens
in every row; fully filled, no blanks). -/
def onesGrid : List (List Nat) := List.replicate 9 (List.replicate 9 1)

def bOnes : Sudoku := Sudoku.from_zero_grid onesGrid

/-- A legal puzzle input: a valid completed Sudoku grid with the single
cell (0,0) blanked out.  Its unique solution value there is 2, and the
eighty givens are mutually consistent. -/
def gHard : List (List Nat) :=
  [[0, 1, 3, 4, 5, 6, 7, 8, 9],
   [4, 5, 6, 7, 8, 9, 2, 1, 3],
   [7, 8, 9, 2, 1, 3, 4, 5, 6],
   [1, 3, 4, 5, 6, 7, 8, 9, 2],
   [5, 6, 7, 8, 9, 2, 1, 3, 4],
   [8, 9, 2, 1, 3, 4, 5, 6, 7],
   [3, 4, 5, 6, 7, 8, 9, 2, 1],
   [6, 7, 8, 9, 2, 1, 3, 4, 5],
   [9, 2, 1, 3, 4, 5, 6, 7, 8]]

def bHard : Sudoku :=
  match (Sudoku.from_zero_grid gHard).initialize_superpositions with
  | some b => b
  | none => ⟨[]⟩

def solvedHard : Sudoku :=
  match Sudoku.solve bHard with
  | SolveResult.ok b => b
  | _ => ⟨[]⟩

/-- A one-cell board whose cell is a contradiction (zero candidates). -/
def bAbort : Sudoku := ⟨[Cell.Superposition (List.replicate 9 false)]⟩

/-! ### List-level helper lemmas -/

theorem getD_set_self {α : Type} (l : List α) (i : Nat) (a d : α) (h : i < l.length) :
    (l.set i a).getD i d = a := by
  induction l generalizing i with
  | nil => simp at h
  | cons c t ih =>
    cases i with
    | zero => simp
    | succ j =>
      simp only [List.set, List.getD_cons_succ]
      exact ih j (by simpa using h)

theorem getD_set_ne {α : Type} (l : List α) (i j : Nat) (a d : α) (h : i ≠ j) :
    (l.set i a).getD j d = l.getD j d := by
  induction l generalizing i j with
  | nil => simp
  | cons c t ih =>
    cases i with
    | zero =>
      cases j with
      | zero => exact absurd rfl h
      | succ j2 => simp
    | succ i2 =>
      cases j with
      | zero => simp
      | succ j2 =>
        simp only [List.set, List.getD_cons_succ]
        exact ih i2 j2 (fun hc => h (by rw [hc]))

theorem getD_lt_length {α : Type} (p : α → Bool) (l : List α) (i : Nat) (d : α)
    (h : p (l.getD i d) = true) (hd : p d = false) : i < l.length := by
  by_contra hge
  rw [List.getD_eq_default _ _ (Nat.le_of_not_lt hge)] at h
  rw [hd] at h
  exact Bool.false_ne_true h

theorem countP_set_le {α : Type} (p : α → Bool) (l : List α) (i : Nat) (a : α)
    (ha : p a = false) : (l.set i a).countP p ≤ l.countP p := by
  induction l generalizing i with
  | nil => simp
  | cons c t ih =>
    cases i with
    | zero => simp [List.countP_cons, ha]
    | succ j =>
      simp only [List.set, List.countP_cons]
      have := ih j
      omega

theorem countP_set_lt {α : Type} (p : α → Bool) (l : List α) (i : Nat) (a d : α)
    (hc : p (l.getD i d) = true) (hd : p d = false) (ha : p a = false) :
    (l.set i a).countP p < l.countP p := by
  induction l generalizing i with
  | nil =>
    simp only [List.getD_nil] at hc
    rw [hd] at hc
    exact absurd hc Bool.false_ne_true
  | cons c t ih =>
    cases i with
    | zero =>
      simp only [List.getD_cons_zero] at hc
      simp [List.countP_cons, ha, hc]
    | succ j =>
      simp only [List.getD_cons_succ] at hc
      simp only [List.set, List.countP_cons]
      have := ih j hc
      omega

theorem countP_set_eqclass {α : Type} (p : α → Bool) (l : List α) (i : Nat) (a d : α)
    (h : p a = p (l.getD i d)) : (l.set i a).countP p = l.countP p := by
  induction l generalizing i with
  | nil => simp
  | cons c t ih =>
    cases i with
    | zero =>
      simp only [List.getD_cons_zero] at h
      simp only [List.set, List.countP_cons, h]
    | succ j =>
      simp only [List.getD_cons_succ] at h
      simp only [List.set, List.countP_cons, ih j h]

theorem countP_pos_of_getD {α : Type} (p : α → Bool) (l : List α) (i : Nat) (d : α)
    (hc : p (l.getD i d) = true) (hd : p d = false) : 0 < l.countP p := by
  induction l generalizing i with
  | nil =>
    simp only [List.getD_nil] at hc
    rw [hd] at hc
    exact absurd hc Bool.false_ne_true
  | cons c t ih =>
    cases i with
    | zero =>
      simp only [List.getD_cons_zero] at hc
      simp [List.countP_cons, hc]
    | succ j =>
      simp only [List.getD_cons_succ] at hc
      have := ih j hc
      simp only [List.countP_cons]
      omega

theorem list_ext_getD {α : Type} (d : α) (l1 l2 : List α) (hlen : l1.length = l2.length)
    (h : ∀ j, l1.getD j d = l2.getD j d) : l1 = l2 := by
  induction l1 generalizing l2 with
  | nil =>
    cases l2 with
    | nil => rfl
    | cons c t => simp at hlen
  | cons c t ih =>
    cases l2 with
    | nil => simp at hlen
    | cons c2 t2 =>
      have h0 := h 0
      simp only [List.getD_cons_zero] at h0
      subst h0
      have := ih t2 (by simpa using hlen) (fun j => by simpa using h (j + 1))
      rw [this]

theorem mem_of_set {α : Type} (l : List α) (i : Nat) (a x : α) (h : x ∈ l.set i a) :
    x = a ∨ x ∈ l := by
  induction l generalizing i with
  | nil => simp at h
  | cons c t ih =>
    cases i with
    | zero =>
      rcases List.mem_cons.mp h with h1 | h1
      · exact Or.inl h1
      · exact Or.inr (List.mem_cons_of_mem _ h1)
    | succ j =>
      rcases List.mem_cons.mp h with h1 | h1
      · exact Or.inr (h1 ▸ List.mem_cons_self _ _)
      · rcases ih j h1 with h2 | h2
        · exact Or.inl h2
        · exact Or.inr (List.mem_cons_of_mem _ h2)

theorem mem_of_getD {α : Type} (l : List α) (i : Nat) (d : α) (h : i < l.length) :
    l.getD i d ∈ l := by
  induction l generalizing i with
  | nil => simp at h
  | cons c t ih =>
    cases i with
    | zero => simp
    | succ j =>
      simp only [List.getD_cons_succ]
      exact List.mem_cons_of_mem _ (ih j (by simpa using h))

theorem getD_map_of_lt {α β : Type} (f : α → β) (l : List α) (i : Nat) (d1 : β) (d2 : α)
    (h : i < l.length) : (l.map f).getD i d1 = f (l.getD i d2) := by
  induction l generalizing i with
  | nil => simp at h
  | cons c t ih =>
    cases i with
    | zero => simp
    | succ j =>
      simp only [List.map_cons, List.getD_cons_succ]
      exact ih j (by simpa using h)

/-! ### Cell-level lemmas -/

theorem isSuper_iff (c : Cell) : isSuper c = true ↔ ∃ s, c = Cell.Superposition s := by
  cases c <;> simp [isSuper]

theorem isSuper_clearBit (c : Cell) (k : Nat) : isSuper (c.clearBit k) = isSuper c := by
  cases c <;> rfl

theorem clearBit_clearBit (c : Cell) (k : Nat) :
    (c.clearBit k).clearBit k = c.clearBit k := by
  cases c <;> simp [Cell.clearBit, List.set_set]

theorem clearBit_fixed (n k : Nat) : (Cell.Fixed n).clearBit k = Cell.Fixed n := rfl

theorem clearBit_ne_empty (c : Cell) (k : Nat) (h : c ≠ Cell.Empty) :
    c.clearBit k ≠ Cell.Empty := by
  cases c <;> simp_all [Cell.clearBit]

theorem count_superstates_zero_iff (c : Cell) :
    (Cell.count_superstates c).getD 1 = 0 ↔
      ∃ s, c = Cell.Superposition s ∧ s.countP (fun x => x) = 0 := by
  cases c <;> simp [Cell.count_superstates]

/-! ### Board operation lemmas -/

theorem getCell_setCell_self (b : Sudoku) (i : Nat) (c : Cell) (h : i < b.grid.length) :
    (b.setCell i c).getCell i = c :=
  getD_set_self _ _ _ _ h

theorem getCell_setCell_ne (b : Sudoku) (i j : Nat) (c : Cell) (h : i ≠ j) :
    (b.setCell i c).getCell j = b.getCell j :=
  getD_set_ne _ _ _ _ _ h

theorem length_setCell (b : Sudoku) (i : Nat) (c : Cell) :
    (b.setCell i c).grid.length = b.grid.length := List.length_set _ _ _

theorem isSuper_getCell_of_eq (b : Sudoku) (i : Nat) (s : List Bool)
    (h : b.getCell i = Cell.Superposition s) : isSuper (b.getCell i) = true := by
  rw [h]; rfl

theorem lt_length_of_super (b : Sudoku) (i : Nat) (s : List Bool)
    (h : b.getCell i = Cell.Superposition s) : i < b.grid.length :=
  getD_lt_length isSuper b.grid i Cell.Empty (isSuper_getCell_of_eq b i s h) rfl

theorem numSuper_setCell_le (b : Sudoku) (i : Nat) (c : Cell) (hc : isSuper c = false) :
    (b.setCell i c).numSuper ≤ b.numSuper :=
  countP_set_le _ _ _ _ hc

theorem numSuper_setCell_lt (b : Sudoku) (i : Nat) (c : Cell) (s : List Bool)
    (hi : b.getCell i = Cell.Superposition s) (hc : isSuper c = false) :
    (b.setCell i c).numSuper < b.numSuper :=
  countP_set_lt isSuper b.grid i c Cell.Empty (isSuper_getCell_of_eq b i s hi) rfl hc

theorem numSuper_pos_of_super (b : Sudoku) (i : Nat) (s : List Bool)
    (hi : b.getCell i = Cell.Superposition s) : 0 < b.numSuper :=
  countP_pos_of_getD isSuper b.grid i Cell.Empty (isSuper_getCell_of_eq b i s hi) rfl

theorem numSuper_le_length (b : Sudoku) : b.numSuper ≤ b.grid.length :=
  List.countP_le_length _

theorem clearCand_eq_of_super (b : Sudoku) (i k : Nat) (s : List Bool)
    (hci : b.getCell i = Cell.Superposition s) :
    b.clearCand i k = b.setCell i (Cell.Superposition (s.set k false)) := by
  unfold Sudoku.clearCand
  rw [hci]

theorem clearCand_eq_of_not_super (b : Sudoku) (i k : Nat)
    (hci : isSuper (b.getCell i) = false) : b.clearCand i k = b := by
  unfold Sudoku.clearCand
  cases hc : b.getCell i with
  | Superposition s => rw [hc] at hci; simp [isSuper] at hci
  | Empty => rfl
  | Fixed n => rfl
  | Collapsed n => rfl

theorem getCell_clearCand (b : Sudoku) (i k j : Nat) :
    (b.clearCand i k).getCell j =
      if j = i then (b.getCell i).clearBit k else b.getCell j := by
  cases hci : b.getCell i with
  | Superposition s =>
    rw [clearCand_eq_of_super b i k s hci]
    by_cases hji : j = i
    · subst hji
      rw [if_pos rfl, getCell_setCell_self _ _ _ (lt_length_of_super b j s hci)]
      rfl
    · rw [if_neg hji, getCell_setCell_ne _ _ _ _ (fun h => hji h.symm)]
  | Empty =>
    rw [clearCand_eq_of_not_super b i k (by rw [hci]; rfl)]
    by_cases hji : j = i
    · subst hji; rw [if_pos rfl, hci]; rfl
    · rw [if_neg hji]
  | Fixed n =>
    rw [clearCand_eq_of_not_super b i k (by rw [hci]; rfl)]
    by_cases hji : j = i
    · subst hji; rw [if_pos rfl, hci]; rfl
    · rw [if_neg hji]
  | Collapsed n =>
    rw [clearCand_eq_of_not_super b i k (by rw [hci]; rfl)]
    by_cases hji : j = i
    · subst hji; rw [if_pos rfl, hci]; rfl
    · rw [if_neg hji]

theorem length_clearCand (b : Sudoku) (i k : Nat) :
    (b.clearCand i k).grid.length = b.grid.length := by
  cases hci : b.getCell i with
  | Superposition s => rw [clearCand_eq_of_super b i k s hci]; exact length_setCell _ _ _
  | Empty => rw [clearCand_eq_of_not_super b i k (by rw [hci]; rfl)]
  | Fixed n => rw [clearCand_eq_of_not_super b i k (by rw [hci]; rfl)]
  | Collapsed n => rw [clearCand_eq_of_not_super b i k (by rw [hci]; rfl)]

theorem numSuper_clearCand (b : Sudoku) (i k : Nat) :
    (b.clearCand i k).numSuper = b.numSuper := by
  cases hci : b.getCell i with
  | Superposition s =>
    rw [clearCand_eq_of_super b i k s hci]
    apply countP_set_eqclass
    have : b.grid.getD i Cell.Empty = Cell.Superposition s := hci
    rw [this]
    rfl
  | Empty => rw [clearCand_eq_of_not_super b i k (by rw [hci]; rfl)]
  | Fixed n => rw [clearCand_eq_of_not_super b i k (by rw [hci]; rfl)]
  | Collapsed n => rw [clearCand_eq_of_not_super b i k (by rw [hci]; rfl)]

/-! ### clearList characterization (used for propagate) -/

theorem clearList_nil (b : Sudoku) (k : Nat) : clearList b [] k = b := rfl

theorem clearList_cons (b : Sudoku) (i : Nat) (L : List Nat) (k : Nat) :
    clearList b (i :: L) k = clearList (b.clearCand i k) L k := rfl

theorem getCell_clearList (L : List Nat) (b : Sudoku) (k j : Nat) :
    (clearList b L k).getCell j =
      if j ∈ L then (b.getCell j).clearBit k else b.getCell j := by
  induction L generalizing b with
  | nil => simp [clearList_nil]
  | cons i L2 ih =>
    rw [clearList_cons, ih]
    by_cases hji : j = i
    · subst hji
      have hg : (b.clearCand j k).getCell j = (b.getCell j).clearBit k := by
        rw [getCell_clearCand, if_pos rfl]
      rw [if_pos (List.mem_cons_self j L2)]
      by_cases hmem : j ∈ L2
      · rw [if_pos hmem, hg, clearBit_clearBit]
      · rw [if_neg hmem, hg]
    · have hg : (b.clearCand i k).getCell j = b.getCell j := by
        rw [getCell_clearCand, if_neg hji]
      by_cases hmem : j ∈ L2
      · rw [if_pos hmem, hg, if_pos (List.mem_cons_of_mem _ hmem)]
      · have hnotin : j ∉ i :: L2 := by
          intro hc
          rcases List.mem_cons.mp hc with h | h
          · exact hji h
          · exact hmem h
        rw [if_neg hmem, hg, if_neg hnotin]

theorem length_clearList (L : List Nat) (b : Sudoku) (k : Nat) :
    (clearList b L k).grid.length = b.grid.length := by
  induction L generalizing b with
  | nil => rfl
  | cons i L2 ih => rw [clearList_cons, ih, length_clearCand]

theorem numSuper_clearList (L : List Nat) (b : Sudoku) (k : Nat) :
    (clearList b L k).numSuper = b.numSuper := by
  induction L generalizing b with
  | nil => rfl
  | cons i L2 ih => rw [clearList_cons, ih, numSuper_clearCand]

/-! ### Structure and solved-state lemmas -/

theorem sudoku_eq_of_grid (b1 b2 : Sudoku) (h : b1.grid = b2.grid) : b1 = b2 := by
  cases b1; cases b2; cases h; rfl

theorem exists_getD_of_mem {α : Type} (l : List α) (x : α) (d : α) (h : x ∈ l) :
    ∃ i, i < l.length ∧ l.getD i d = x := by
  induction l with
  | nil => simp at h
  | cons c t ih =>
    rcases List.mem_cons.mp h with h1 | h1
    · exact ⟨0, by simp, by simp [h1.symm]⟩
    · obtain ⟨i, hi, hgd⟩ := ih h1
      exact ⟨i + 1, by simpa using hi, by simpa using hgd⟩

theorem noEmpty_iff_getCell (b : Sudoku) :
    b.noEmpty ↔ ∀ j, j < b.grid.length → b.getCell j ≠ Cell.Empty := by
  constructor
  · intro h j hj
    exact h _ (mem_of_getD _ _ _ hj)
  · intro h c hc
    obtain ⟨i, hi, hgd⟩ := exists_getD_of_mem b.grid c Cell.Empty hc
    exact hgd ▸ h i hi

theorem noEmpty_setCell (b : Sudoku) (i : Nat) (c : Cell) (hb : b.noEmpty)
    (hc : c ≠ Cell.Empty) : (b.setCell i c).noEmpty := by
  intro x hx
  rcases mem_of_set _ _ _ _ hx with h | h
  · exact h ▸ hc
  · exact hb x h

theorem is_solved_false_of_super (b : Sudoku) (i : Nat) (s : List Bool)
    (h : b.getCell i = Cell.Superposition s) : b.is_solved = false := by
  have hm : Cell.Superposition s ∈ b.grid := h ▸ mem_of_getD _ _ _ (lt_length_of_super b i s h)
  unfold Sudoku.is_solved
  rw [List.all_eq_false]
  exact ⟨_, hm, by simp⟩

theorem exists_super_of_not_solved (b : Sudoku) (hne : b.noEmpty)
    (h : b.is_solved = false) : ∃ c ∈ b.grid, isSuper c = true := by
  unfold Sudoku.is_solved at h
  rw [List.all_eq_false] at h
  obtain ⟨c, hc, hp⟩ := h
  refine ⟨c, hc, ?_⟩
  cases c with
  | Empty => exact absurd rfl (hne _ hc)
  | Fixed n => simp at hp
  | Collapsed n => simp at hp
  | Superposition s => rfl

/-! ### FixedPres infrastructure -/

theorem fixedPres_refl (b : Sudoku) : FixedPres b b := fun _ _ h => h

theorem fixedPres_trans (b1 b2 b3 : Sudoku) (h12 : FixedPres b1 b2)
    (h23 : FixedPres b2 b3) : FixedPres b1 b3 :=
  fun i n h => h23 i n (h12 i n h)

theorem fixedPres_setCell_super (b : Sudoku) (idx : Nat) (c : Cell)
    (h : isSuper (b.getCell idx) = true) : FixedPres b (b.setCell idx c) := by
  intro j n hj
  by_cases hji : j = idx
  · rw [hji] at hj; rw [hj] at h; simp [isSuper] at h
  · rw [getCell_setCell_ne _ _ _ _ (fun hc => hji hc.symm), hj]

/-! ### propagate lemmas -/

theorem propagateFrom_eq_clearList (b : Sudoku) (idx n : Nat) :
    b.propagateFrom idx n = clearList b (peersList idx) (n - 1) := by
  unfold Sudoku.propagateFrom clearList peersList
  rw [List.foldl_append, List.foldl_append]

theorem propagate_eq_fixed (b : Sudoku) (idx n : Nat) (h : b.getCell idx = Cell.Fixed n) :
    b.propagate idx = clearList b (peersList idx) (n - 1) := by
  unfold Sudoku.propagate
  rw [h]
  exact propagateFrom_eq_clearList b idx n

theorem propagate_eq_collapsed (b : Sudoku) (idx n : Nat)
    (h : b.getCell idx = Cell.Collapsed n) :
    b.propagate idx = clearList b (peersList idx) (n - 1) := by
  unfold Sudoku.propagate
  rw [h]
  exact propagateFrom_eq_clearList b idx n

theorem propagate_eq_empty (b : Sudoku) (idx : Nat) (h : b.getCell idx = Cell.Empty) :
    b.propagate idx = b := by
  unfold Sudoku.propagate
  rw [h]

theorem propagate_eq_super (b : Sudoku) (idx : Nat) (s : List Bool)
    (h : b.getCell idx = Cell.Superposition s) : b.propagate idx = b := by
  unfold Sudoku.propagate
  rw [h]

theorem length_propagate (b : Sudoku) (idx : Nat) :
    (b.propagate idx).grid.length = b.grid.length := by
  cases h : b.getCell idx with
  | Empty => rw [propagate_eq_empty b idx h]
  | Superposition s => rw [propagate_eq_super b idx s h]
  | Fixed n => rw [propagate_eq_fixed b idx n h, length_clearList]
  | Collapsed n => rw [propagate_eq_collapsed b idx n h, length_clearList]

theorem numSuper_propagate (b : Sudoku) (idx : Nat) :
    (b.propagate idx).numSuper = b.numSuper := by
  cases h : b.getCell idx with
  | Empty => rw [propagate_eq_empty b idx h]
  | Superposition s => rw [propagate_eq_super b idx s h]
  | Fixed n => rw [propagate_eq_fixed b idx n h, numSuper_clearList]
  | Collapsed n => rw [propagate_eq_collapsed b idx n h, numSuper_clearList]

theorem getCell_clearList_fixed (L : List Nat) (b : Sudoku) (k j n : Nat)
    (h : b.getCell j = Cell.Fixed n) : (clearList b L k).getCell j = Cell.Fixed n := by
  rw [getCell_clearList]
  by_cases hm : j ∈ L
  · rw [if_pos hm, h]; rfl
  · rw [if_neg hm, h]

theorem getCell_clearList_collapsed (L : List Nat) (b : Sudoku) (k j n : Nat)
    (h : b.getCell j = Cell.Collapsed n) :
    (clearList b L k).getCell j = Cell.Collapsed n := by
  rw [getCell_clearList]
  by_cases hm : j ∈ L
  · rw [if_pos hm, h]; rfl
  · rw [if_neg hm, h]

theorem fixedPres_propagate (b : Sudoku) (idx : Nat) : FixedPres b (b.propagate idx) := by
  cases h : b.getCell idx with
  | Empty => rw [propagate_eq_empty b idx h]; exact fixedPres_refl b
  | Superposition s => rw [propagate_eq_super b idx s h]; exact fixedPres_refl b
  | Fixed n =>
    rw [propagate_eq_fixed b idx n h]
    intro j m hj
    exact getCell_clearList_fixed _ _ _ _ _ hj
  | Collapsed n =>
    rw [propagate_eq_collapsed b idx n h]
    intro j m hj
    exact getCell_clearList_fixed _ _ _ _ _ hj

theorem noEmpty_clearList (L : List Nat) (b : Sudoku) (k : Nat) (hb : b.noEmpty) :
    (clearList b L k).noEmpty := by
  rw [noEmpty_iff_getCell]
  intro j hj
  rw [length_clearList] at hj
  rw [getCell_clearList]
  have hne := (noEmpty_iff_getCell b).mp hb j hj
  by_cases hm : j ∈ L
  · rw [if_pos hm]; exact clearBit_ne_empty _ _ hne
  · rw [if_neg hm]; exact hne

theorem noEmpty_propagate (b : Sudoku) (idx : Nat) (hb : b.noEmpty) :
    (b.propagate idx).noEmpty := by
  cases h : b.getCell idx with
  | Empty => rw [propagate_eq_empty b idx h]; exact hb
  | Superposition s => rw [propagate_eq_super b idx s h]; exact hb
  | Fixed n => rw [propagate_eq_fixed b idx n h]; exact noEmpty_clearList _ _ _ hb
  | Collapsed n => rw [propagate_eq_collapsed b idx n h]; exact noEmpty_clearList _ _ _ hb

theorem clearList_clearList (L : List Nat) (b : Sudoku) (k : Nat) :
    clearList (clearList b L k) L k = clearList b L k := by
  apply sudoku_eq_of_grid
  apply list_ext_getD Cell.Empty
  · rw [length_clearList, length_clearList]
  · intro j
    have h1 : (clearList (clearList b L k) L k).getCell j =
        if j ∈ L then ((clearList b L k).getCell j).clearBit k
        else (clearList b L k).getCell j := getCell_clearList L (clearList b L k) k j
    have h2 : (clearList b L k).getCell j =
        if j ∈ L then (b.getCell j).clearBit k else b.getCell j := getCell_clearList L b k j
    show (clearList (clearList b L k) L k).getCell j = (clearList b L k).getCell j
    rw [h1, h2]
    by_cases hm : j ∈ L
    · simp only [if_pos hm, clearBit_clearBit]
    · simp only [if_neg hm]

/-! ### solve_pure_negative lemmas -/

theorem pureNegativeAt_shape (b : Sudoku) (idx k : Nat) (c : Cell)
    (h : b.pureNegativeAt idx k = some c) : c = Cell.Collapsed (k + 1) := by
  unfold Sudoku.pureNegativeAt at h
  split at h
  · exact (Option.some.inj h).symm
  · split at h
    · exact (Option.some.inj h).symm
    · split at h
      · exact (Option.some.inj h).symm
      · cases h

theorem spn_eq_of_not_super (b : Sudoku) (idx : Nat)
    (h : isSuper (b.getCell idx) = false) : b.solve_pure_negative idx = b := by
  unfold Sudoku.solve_pure_negative
  cases hc : b.getCell idx with
  | Superposition s => rw [hc] at h; simp [isSuper] at h
  | Empty => rfl
  | Fixed n => rfl
  | Collapsed n => rfl

theorem spn_cases (b : Sudoku) (idx : Nat) :
    b.solve_pure_negative idx = b ∨
      ∃ v s, b.getCell idx = Cell.Superposition s ∧
        b.solve_pure_negative idx = b.setCell idx (Cell.Collapsed v) := by
  cases hc : b.getCell idx with
  | Superposition s =>
    have hunf : b.solve_pure_negative idx =
        match (List.range BOARD_LEN).findSome? (fun k =>
            if s.getD k false then b.pureNegativeAt idx k else none) with
        | some c => b.setCell idx c
        | none => b := by
      unfold Sudoku.solve_pure_negative
      rw [hc]
    cases hf : (List.range BOARD_LEN).findSome? (fun k =>
        if s.getD k false then b.pureNegativeAt idx k else none) with
    | none => rw [hf] at hunf; exact Or.inl hunf
    | some c =>
      rw [hf] at hunf
      obtain ⟨k, hk, hfk⟩ := List.exists_of_findSome?_eq_some hf
      right
      have hcc : c = Cell.Collapsed (k + 1) := by
        by_cases hsk : s.getD k false = true
        · rw [if_pos hsk] at hfk; exact pureNegativeAt_shape b idx k c hfk
        · rw [if_neg hsk] at hfk; cases hfk
      exact ⟨k + 1, s, rfl, by rw [hunf, hcc]⟩
  | Empty => exact Or.inl (spn_eq_of_not_super b idx (by rw [hc]; rfl))
  | Fixed n => exact Or.inl (spn_eq_of_not_super b idx (by rw [hc]; rfl))
  | Collapsed n => exact Or.inl (spn_eq_of_not_super b idx (by rw [hc]; rfl))

theorem length_spn (b : Sudoku) (idx : Nat) :
    (b.solve_pure_negative idx).grid.length = b.grid.length := by
  rcases spn_cases b idx with h | ⟨v, s, hs, h⟩
  · rw [h]
  · rw [h]; exact length_setCell _ _ _

theorem numSuper_spn_le (b : Sudoku) (idx : Nat) :
    (b.solve_pure_negative idx).numSuper ≤ b.numSuper := by
  rcases spn_cases b idx with h | ⟨v, s, hs, h⟩
  · rw [h]
  · rw [h]; exact numSuper_setCell_le _ _ _ rfl

theorem fixedPres_spn (b : Sudoku) (idx : Nat) :
    FixedPres b (b.solve_pure_negative idx) := by
  rcases spn_cases b idx with h | ⟨v, s, hs, h⟩
  · rw [h]; exact fixedPres_refl b
  · rw [h]; exact fixedPres_setCell_super b idx _ (isSuper_getCell_of_eq b idx s hs)

theorem noEmpty_spn (b : Sudoku) (idx : Nat) (hb : b.noEmpty) :
    (b.solve_pure_negative idx).noEmpty := by
  rcases spn_cases b idx with h | ⟨v, s, hs, h⟩
  · rw [h]; exact hb
  · rw [h]
    exact noEmpty_setCell _ _ _ hb (by simp)

/-! ### propagationPass lemmas -/

theorem length_passFold : ∀ (L : List Nat) (b : Sudoku),
    (L.foldl (fun b idx => (b.solve_pure_negative idx).propagate idx) b).grid.length =
      b.grid.length := by
  intro L
  induction L with
  | nil => intro b; rfl
  | cons i t ih =>
    intro b
    rw [List.foldl_cons, ih, length_propagate, length_spn]

theorem numSuper_passFold_le : ∀ (L : List Nat) (b : Sudoku),
    (L.foldl (fun b idx => (b.solve_pure_negative idx).propagate idx) b).numSuper ≤
      b.numSuper := by
  intro L
  induction L with
  | nil => intro b; exact Nat.le_refl _
  | cons i t ih =>
    intro b
    rw [List.foldl_cons]
    calc (t.foldl _ ((b.solve_pure_negative i).propagate i)).numSuper
        ≤ ((b.solve_pure_negative i).propagate i).numSuper := ih _
      _ = (b.solve_pure_negative i).numSuper := numSuper_propagate _ _
      _ ≤ b.numSuper := numSuper_spn_le _ _

theorem fixedPres_passFold : ∀ (L : List Nat) (b : Sudoku),
    FixedPres b (L.foldl (fun b idx => (b.solve_pure_negative idx).propagate idx) b) := by
  intro L
  induction L with
  | nil => intro b; exact fixedPres_refl b
  | cons i t ih =>
    intro b
    rw [List.foldl_cons]
    exact fixedPres_trans _ _ _
      (fixedPres_trans _ _ _ (fixedPres_spn b i) (fixedPres_propagate _ i)) (ih _)

theorem noEmpty_passFold : ∀ (L : List Nat) (b : Sudoku), b.noEmpty →
    (L.foldl (fun b idx => (b.solve_pure_negative idx).propagate idx) b).noEmpty := by
  intro L
  induction L with
  | nil => intro b hb; exact hb
  | cons i t ih =>
    intro b hb
    rw [List.foldl_cons]
    exact ih _ (noEmpty_propagate _ i (noEmpty_spn b i hb))

theorem length_propagationPass (b : Sudoku) :
    b.propagationPass.grid.length = b.grid.length :=
  length_passFold (List.range BOARD_SIZE) b

theorem numSuper_propagationPass_le (b : Sudoku) :
    b.propagationPass.numSuper ≤ b.numSuper :=
  numSuper_passFold_le (List.range BOARD_SIZE) b

theorem fixedPres_propagationPass (b : Sudoku) : FixedPres b b.propagationPass :=
  fixedPres_passFold (List.range BOARD_SIZE) b

theorem noEmpty_propagationPass (b : Sudoku) (hb : b.noEmpty) :
    b.propagationPass.noEmpty :=
  noEmpty_passFold (List.range BOARD_SIZE) b hb

/-! ### collapseStep and collapsePass lemmas -/

theorem collapseStep_cases (b : Sudoku) (collapsed : Bool) (idx : Nat) :
    b.collapseStep collapsed idx = (b, collapsed) ∨
      ∃ value s, b.getCell idx = Cell.Superposition s ∧
        b.collapseStep collapsed idx =
          (((b.setCell idx (Cell.Collapsed value)).solve_pure_negative idx).propagate idx,
            true) := by
  cases hc : b.getCell idx with
  | Superposition s =>
    have hunf : b.collapseStep collapsed idx =
        match Cell.collapse (Cell.Superposition s) with
        | some value =>
            (((b.setCell idx (Cell.Collapsed value)).solve_pure_negative idx).propagate idx,
              true)
        | none => (b, collapsed) := by
      unfold Sudoku.collapseStep
      rw [hc]
    cases hcol : Cell.collapse (Cell.Superposition s) with
    | none => rw [hcol] at hunf; exact Or.inl hunf
    | some value => rw [hcol] at hunf; exact Or.inr ⟨value, s, rfl, hunf⟩
  | Empty => left; unfold Sudoku.collapseStep; rw [hc]
  | Fixed n => left; unfold Sudoku.collapseStep; rw [hc]
  | Collapsed n => left; unfold Sudoku.collapseStep; rw [hc]

theorem length_collapseStep (b : Sudoku) (collapsed : Bool) (idx : Nat) :
    (b.collapseStep collapsed idx).1.grid.length = b.grid.length := by
  rcases collapseStep_cases b collapsed idx with h | ⟨v, s, hs, h⟩
  · rw [h]
  · rw [h, length_propagate, length_spn, length_setCell]

theorem numSuper_collapseStep_le (b : Sudoku) (collapsed : Bool) (idx : Nat) :
    (b.collapseStep collapsed idx).1.numSuper ≤ b.numSuper := by
  rcases collapseStep_cases b collapsed idx with h | ⟨v, s, hs, h⟩
  · rw [h]
  · rw [h]
    calc (((b.setCell idx (Cell.Collapsed v)).solve_pure_negative idx).propagate idx).numSuper
        = ((b.setCell idx (Cell.Collapsed v)).solve_pure_negative idx).numSuper :=
          numSuper_propagate _ _
      _ ≤ (b.setCell idx (Cell.Collapsed v)).numSuper := numSuper_spn_le _ _
      _ ≤ b.numSuper := numSuper_setCell_le _ _ _ rfl

theorem numSuper_collapseStep_lt (b : Sudoku) (idx : Nat) (b2 : Sudoku)
    (h : b.collapseStep false idx = (b2, true)) : b2.numSuper < b.numSuper := by
  rcases collapseStep_cases b false idx with h0 | ⟨v, s, hs, h0⟩
  · rw [h0] at h
    cases h
  · rw [h0] at h
    have hb2 : b2 =
        ((b.setCell idx (Cell.Collapsed v)).solve_pure_negative idx).propagate idx :=
      (congrArg Prod.fst h).symm
    rw [hb2]
    calc (((b.setCell idx (Cell.Collapsed v)).solve_pure_negative idx).propagate idx).numSuper
        = ((b.setCell idx (Cell.Collapsed v)).solve_pure_negative idx).numSuper :=
          numSuper_propagate _ _
      _ ≤ (b.setCell idx (Cell.Collapsed v)).numSuper := numSuper_spn_le _ _
      _ < b.numSuper := numSuper_setCell_lt b idx _ s hs rfl

theorem fixedPres_collapseStep (b : Sudoku) (collapsed : Bool) (idx : Nat) :
    FixedPres b (b.collapseStep collapsed idx).1 := by
  rcases collapseStep_cases b collapsed idx with h | ⟨v, s, hs, h⟩
  · rw [h]; exact fixedPres_refl b
  · rw [h]
    exact fixedPres_trans _ _ _
      (fixedPres_trans _ _ _ (fixedPres_setCell_super b idx _ (isSuper_getCell_of_eq b idx s hs))
        (fixedPres_spn _ idx))
      (fixedPres_propagate _ idx)

theorem noEmpty_collapseStep (b : Sudoku) (collapsed : Bool) (idx : Nat) (hb : b.noEmpty) :
    (b.collapseStep collapsed idx).1.noEmpty := by
  rcases collapseStep_cases b collapsed idx with h | ⟨v, s, hs, h⟩
  · rw [h]; exact hb
  · rw [h]
    exact noEmpty_propagate _ idx (noEmpty_spn _ idx (noEmpty_setCell _ _ _ hb (by simp)))

theorem collapsePass_nil (b : Sudoku) (flag : Bool) :
    Sudoku.collapsePass b flag [] = PassResult.done b flag := rfl

theorem collapsePass_cons (b : Sudoku) (flag : Bool) (idx : Nat) (rest : List Nat) :
    Sudoku.collapsePass b flag (idx :: rest) =
      if (Cell.count_superstates ((b.collapseStep flag idx).1.getCell idx)).getD 1 = 0 then
        PassResult.aborted (b.collapseStep flag idx).1
      else
        Sudoku.collapsePass (b.collapseStep flag idx).1 (b.collapseStep flag idx).2 rest := rfl

theorem collapsePass_done_facts : ∀ (idxs : List Nat) (b : Sudoku) (flag : Bool)
    (b2 : Sudoku) (flag2 : Bool),
    Sudoku.collapsePass b flag idxs = PassResult.done b2 flag2 →
    b2.numSuper ≤ b.numSuper ∧ b2.grid.length = b.grid.length ∧ FixedPres b b2 ∧
      (b.noEmpty → b2.noEmpty) := by
  intro idxs
  induction idxs with
  | nil =>
    intro b flag b2 flag2 h
    rw [collapsePass_nil] at h
    cases h
    exact ⟨Nat.le_refl _, rfl, fixedPres_refl b, fun hb => hb⟩
  | cons idx rest ih =>
    intro b flag b2 flag2 h
    rw [collapsePass_cons] at h
    by_cases hz :
        (Cell.count_superstates ((b.collapseStep flag idx).1.getCell idx)).getD 1 = 0
    · rw [if_pos hz] at h
      cases h
    · rw [if_neg hz] at h
      obtain ⟨h1, h2, h3, h4⟩ := ih _ _ _ _ h
      refine ⟨Nat.le_trans h1 (numSuper_collapseStep_le b flag idx), ?_, ?_, ?_⟩
      · rw [h2, length_collapseStep]
      · exact fixedPres_trans _ _ _ (fixedPres_collapseStep b flag idx) h3
      · intro hb
        exact h4 (noEmpty_collapseStep b flag idx hb)

theorem collapsePass_aborted_facts : ∀ (idxs : List Nat) (b : Sudoku) (flag : Bool)
    (b2 : Sudoku),
    Sudoku.collapsePass b flag idxs = PassResult.aborted b2 →
    b2.numSuper ≤ b.numSuper ∧ b2.grid.length = b.grid.length ∧ FixedPres b b2 ∧
      (b.noEmpty → b2.noEmpty) := by
  intro idxs
  induction idxs with
  | nil =>
    intro b flag b2 h
    rw [collapsePass_nil] at h
    cases h
  | cons idx rest ih =>
    intro b flag b2 h
    rw [collapsePass_cons] at h
    by_cases hz :
        (Cell.count_superstates ((b.collapseStep flag idx).1.getCell idx)).getD 1 = 0
    · rw [if_pos hz] at h
      cases h
      exact ⟨numSuper_collapseStep_le b flag idx, length_collapseStep b flag idx,
        fixedPres_collapseStep b flag idx, noEmpty_collapseStep b flag idx⟩
    · rw [if_neg hz] at h
      obtain ⟨h1, h2, h3, h4⟩ := ih _ _ _ h
      refine ⟨Nat.le_trans h1 (numSuper_collapseStep_le b flag idx), ?_, ?_, ?_⟩
      · rw [h2, length_collapseStep]
      · exact fixedPres_trans _ _ _ (fixedPres_collapseStep b flag idx) h3
      · intro hb
        exact h4 (noEmpty_collapseStep b flag idx hb)

theorem collapsePass_false_true_lt : ∀ (idxs : List Nat) (b b2 : Sudoku),
    Sudoku.collapsePass b false idxs = PassResult.done b2 true →
    b2.numSuper < b.numSuper := by
  intro idxs
  induction idxs with
  | nil =>
    intro b b2 h
    rw [collapsePass_nil] at h
    cases h
  | cons idx rest ih =>
    intro b b2 h
    rw [collapsePass_cons] at h
    by_cases hz :
        (Cell.count_superstates ((b.collapseStep false idx).1.getCell idx)).getD 1 = 0
    · rw [if_pos hz] at h
      cases h
    · rw [if_neg hz] at h
      cases hs2 : (b.collapseStep false idx).2 with
      | false =>
        rw [hs2] at h
        rcases collapseStep_cases b false idx with h0 | ⟨v, s, hs, h0⟩
        · rw [h0] at h
          exact ih _ _ h
        · rw [h0] at hs2
          cases hs2
      | true =>
        rw [hs2] at h
        have hlt : (b.collapseStep false idx).1.numSuper < b.numSuper := by
          apply numSuper_collapseStep_lt b idx
          have : b.collapseStep false idx =
              ((b.collapseStep false idx).1, (b.collapseStep false idx).2) := rfl
          rw [this, hs2]
        exact Nat.lt_of_le_of_lt (collapsePass_done_facts _ _ _ _ _ h).1 hlt

theorem collapsePass_aborted_zero : ∀ (idxs : List Nat) (b : Sudoku) (flag : Bool)
    (b2 : Sudoku),
    Sudoku.collapsePass b flag idxs = PassResult.aborted b2 →
    ∃ i ∈ idxs, ∃ s, b2.getCell i = Cell.Superposition s ∧
      Cell.count_superstates (b2.getCell i) = some 0 := by
  intro idxs
  induction idxs with
  | nil =>
    intro b flag b2 h
    rw [collapsePass_nil] at h
    cases h
  | cons idx rest ih =>
    intro b flag b2 h
    rw [collapsePass_cons] at h
    by_cases hz :
        (Cell.count_superstates ((b.collapseStep flag idx).1.getCell idx)).getD 1 = 0
    · rw [if_pos hz] at h
      cases h
      obtain ⟨s, hs, hcount⟩ := (count_superstates_zero_iff _).mp hz
      refine ⟨idx, List.mem_cons_self idx rest, s, hs, ?_⟩
      rw [hs]
      show some (s.countP (fun x => x)) = some 0
      rw [hcount]
    · rw [if_neg hz] at h
      obtain ⟨i, hi, s, hs, hcount⟩ := ih _ _ _ h
      exact ⟨i, List.mem_cons_of_mem _ hi, s, hs, hcount⟩

/-! ### solveLoop lemmas -/

theorem solveLoop_zero (b : Sudoku) (iters : Nat) :
    Sudoku.solveLoop 0 b iters = LoopResult.outOfFuel := rfl

theorem solveLoop_succ (fuel : Nat) (b : Sudoku) (iters : Nat) :
    Sudoku.solveLoop (fuel + 1) b iters =
      Sudoku.loopBody b iters (Sudoku.solveLoop fuel) := rfl

theorem loopBody_solved (b : Sudoku) (iters : Nat) (recur : Sudoku → Nat → LoopResult)
    (h : b.is_solved = true) : Sudoku.loopBody b iters recur = LoopResult.finished b := by
  unfold Sudoku.loopBody
  rw [if_pos h]

theorem solveLoop_solved (fuel : Nat) (b : Sudoku) (iters : Nat) (h : b.is_solved = true) :
    Sudoku.solveLoop (fuel + 1) b iters = LoopResult.finished b := by
  rw [solveLoop_succ]
  exact loopBody_solved b iters _ h

theorem loopbody_aborted_facts (b b3 : Sudoku)
    (h : (b.propagationPass).collapsePass false (List.range BOARD_SIZE) =
      PassResult.aborted b3) :
    b3.numSuper ≤ b.numSuper ∧ b3.grid.length = b.grid.length ∧ FixedPres b b3 ∧
      (b.noEmpty → b3.noEmpty) := by
  obtain ⟨h1, h2, h3, h4⟩ := collapsePass_aborted_facts _ _ _ _ h
  refine ⟨Nat.le_trans h1 (numSuper_propagationPass_le b), ?_, ?_, ?_⟩
  · rw [h2, length_propagationPass]
  · exact fixedPres_trans _ _ _ (fixedPres_propagationPass b) h3
  · intro hb
    exact h4 (noEmpty_propagationPass b hb)

theorem loopbody_done_facts (b b3 : Sudoku) (flag2 : Bool)
    (h : (b.propagationPass).collapsePass false (List.range BOARD_SIZE) =
      PassResult.done b3 flag2) :
    b3.numSuper ≤ b.numSuper ∧ b3.grid.length = b.grid.length ∧ FixedPres b b3 ∧
      (b.noEmpty → b3.noEmpty) := by
  obtain ⟨h1, h2, h3, h4⟩ := collapsePass_done_facts _ _ _ _ _ h
  refine ⟨Nat.le_trans h1 (numSuper_propagationPass_le b), ?_, ?_, ?_⟩
  · rw [h2, length_propagationPass]
  · exact fixedPres_trans _ _ _ (fixedPres_propagationPass b) h3
  · intro hb
    exact h4 (noEmpty_propagationPass b hb)

theorem loopbody_true_lt (b b3 : Sudoku)
    (h : (b.propagationPass).collapsePass false (List.range BOARD_SIZE) =
      PassResult.done b3 true) :
    b3.numSuper < b.numSuper :=
  Nat.lt_of_lt_of_le (collapsePass_false_true_lt _ _ _ h) (numSuper_propagationPass_le b)

theorem solveLoop_facts : ∀ (fuel : Nat) (b : Sudoku) (iters : Nat) (b2 : Sudoku),
    (Sudoku.solveLoop fuel b iters = LoopResult.aborted b2 ∨
      Sudoku.solveLoop fuel b iters = LoopResult.finished b2) →
    b2.numSuper ≤ b.numSuper ∧ b2.grid.length = b.grid.length ∧ FixedPres b b2 ∧
      (b.noEmpty → b2.noEmpty) := by
  intro fuel
  induction fuel with
  | zero =>
    intro b iters b2 h
    rw [solveLoop_zero] at h
    rcases h with h | h <;> cases h
  | succ fuel ih =>
    intro b iters b2 h
    rw [solveLoop_succ] at h
    unfold Sudoku.loopBody at h
    by_cases hs : b.is_solved = true
    · rw [if_pos hs] at h
      rcases h with h | h
      · cases h
      · cases h
        exact ⟨Nat.le_refl _, rfl, fixedPres_refl b, fun hb => hb⟩
    · rw [if_neg hs] at h
      cases hcp : (b.propagationPass).collapsePass false (List.range BOARD_SIZE) with
      | aborted b3 =>
        rw [hcp] at h
        have h2 : LoopResult.aborted b3 = LoopResult.aborted b2 ∨
            LoopResult.aborted b3 = LoopResult.finished b2 := h
        rcases h2 with h2 | h2
        · cases h2
          exact loopbody_aborted_facts b b2 hcp
        · cases h2
      | done b3 collapsed =>
        rw [hcp] at h
        have h2 : (if (if collapsed then 0 else iters + 1) > 3 then LoopResult.finished b3
            else Sudoku.solveLoop fuel b3 (if collapsed then 0 else iters + 1)) =
              LoopResult.aborted b2 ∨
            (if (if collapsed then 0 else iters + 1) > 3 then LoopResult.finished b3
            else Sudoku.solveLoop fuel b3 (if collapsed then 0 else iters + 1)) =
              LoopResult.finished b2 := h
        by_cases h4 : (if collapsed then 0 else iters + 1) > 3
        · rw [if_pos h4] at h2
          rcases h2 with h2 | h2
          · cases h2
          · cases h2
            exact loopbody_done_facts b b2 collapsed hcp
        · rw [if_neg h4] at h2
          obtain ⟨g1, g2, g3, gne⟩ := loopbody_done_facts b b3 collapsed hcp
          obtain ⟨k1, k2, k3, kne⟩ := ih b3 _ b2 h2
          refine ⟨Nat.le_trans k1 g1, ?_, fixedPres_trans _ _ _ g3 k3, ?_⟩
          · rw [k2, g2]
          · intro hb
            exact kne (gne hb)

theorem solveLoop_ne_outOfFuel : ∀ (fuel : Nat) (b : Sudoku) (iters : Nat),
    iters ≤ 3 → 5 * b.numSuper + 4 < fuel + iters →
    Sudoku.solveLoop fuel b iters ≠ LoopResult.outOfFuel := by
  intro fuel
  induction fuel with
  | zero =>
    intro b iters h3 hlt
    omega
  | succ fuel ih =>
    intro b iters h3 hlt
    rw [solveLoop_succ]
    unfold Sudoku.loopBody
    by_cases hs : b.is_solved = true
    · rw [if_pos hs]
      simp
    · rw [if_neg hs]
      cases hcp : (b.propagationPass).collapsePass false (List.range BOARD_SIZE) with
      | aborted b3 => simp
      | done b3 collapsed =>
        show (if (if collapsed then 0 else iters + 1) > 3 then LoopResult.finished b3
          else Sudoku.solveLoop fuel b3 (if collapsed then 0 else iters + 1)) ≠
            LoopResult.outOfFuel
        cases collapsed with
        | true =>
          rw [if_neg (by norm_num)]
          apply ih b3 0 (by omega)
          have hlt2 : b3.numSuper < b.numSuper := loopbody_true_lt b b3 hcp
          omega
        | false =>
          show (if iters + 1 > 3 then LoopResult.finished b3
            else Sudoku.solveLoop fuel b3 (iters + 1)) ≠ LoopResult.outOfFuel
          by_cases h4 : iters + 1 > 3
          · rw [if_pos h4]
            simp
          · rw [if_neg h4]
            apply ih b3 (iters + 1) (by omega)
            have hle : b3.numSuper ≤ b.numSuper := (loopbody_done_facts b b3 false hcp).1
            omega

theorem solveLoop_aborted_origin : ∀ (fuel : Nat) (b : Sudoku) (iters : Nat) (b2 : Sudoku),
    Sudoku.solveLoop fuel b iters = LoopResult.aborted b2 →
    ∃ bk : Sudoku, (bk.propagationPass).collapsePass false (List.range BOARD_SIZE) =
      PassResult.aborted b2 := by
  intro fuel
  induction fuel with
  | zero =>
    intro b iters b2 h
    rw [solveLoop_zero] at h
    cases h
  | succ fuel ih =>
    intro b iters b2 h
    rw [solveLoop_succ] at h
    unfold Sudoku.loopBody at h
    by_cases hs : b.is_solved = true
    · rw [if_pos hs] at h
      cases h
    · rw [if_neg hs] at h
      cases hcp : (b.propagationPass).collapsePass false (List.range BOARD_SIZE) with
      | aborted b3 =>
        rw [hcp] at h
        have h2 : LoopResult.aborted b3 = LoopResult.aborted b2 := h
        cases h2
        exact ⟨b, hcp⟩
      | done b3 collapsed =>
        rw [hcp] at h
        have h2 : (if (if collapsed then 0 else iters + 1) > 3 then LoopResult.finished b3
            else Sudoku.solveLoop fuel b3 (if collapsed then 0 else iters + 1)) =
              LoopResult.aborted b2 := h
        by_cases h4 : (if collapsed then 0 else iters + 1) > 3
        · rw [if_pos h4] at h2
          cases h2
        · rw [if_neg h4] at h2
          exact ih b3 _ b2 h2

/-! ### findSuperposition lemmas -/

theorem findSuperIdx_none : ∀ (l : List Cell) (k : Nat),
    findSuperIdx l k = none ↔ ∀ c ∈ l, isSuper c = false := by
  intro l
  induction l with
  | nil => intro k; simp [findSuperIdx]
  | cons c t ih =>
    intro k
    unfold findSuperIdx
    by_cases hc : isSuper c = true
    · rw [if_pos hc]
      simp only [List.mem_cons]
      constructor
      · intro h; cases h
      · intro h
        rw [h c (Or.inl rfl)] at hc
        cases hc
    · rw [if_neg hc]
      rw [ih (k + 1)]
      simp only [List.mem_cons]
      constructor
      · intro h x hx
        rcases hx with hx | hx
        · subst hx
          exact Bool.eq_false_iff.mpr (fun hcc => hc hcc)
        · exact h x hx
      · intro h x hx
        exact h x (Or.inr hx)

theorem findSuperIdx_some : ∀ (l : List Cell) (k i : Nat), findSuperIdx l k = some i →
    ∃ j, i = k + j ∧ j < l.length ∧ isSuper (l.getD j Cell.Empty) = true ∧
      ∀ m, m < j → isSuper (l.getD m Cell.Empty) = false := by
  intro l
  induction l with
  | nil => intro k i h; simp [findSuperIdx] at h
  | cons c t ih =>
    intro k i h
    unfold findSuperIdx at h
    by_cases hc : isSuper c = true
    · rw [if_pos hc] at h
      have hi : i = k := (Option.some.inj h).symm
      exact ⟨0, by omega, by simp, by simpa using hc, fun m hm => absurd hm (Nat.not_lt_zero m)⟩
    · rw [if_neg hc] at h
      obtain ⟨j, hj1, hj2, hj3, hj4⟩ := ih (k + 1) i h
      refine ⟨j + 1, by omega, by simpa using hj2, by simpa using hj3, ?_⟩
      intro m hm
      cases m with
      | zero => simpa using Bool.eq_false_iff.mpr (fun hcc => hc hcc)
      | succ m2 =>
        simp only [List.getD_cons_succ]
        exact hj4 m2 (by omega)

theorem findSuperposition_some (b : Sudoku) (idx : Nat)
    (h : b.findSuperposition = some idx) :
    idx < b.grid.length ∧ isSuper (b.getCell idx) = true ∧
      ∀ j, j < idx → isSuper (b.getCell j) = false := by
  obtain ⟨j, hj1, hj2, hj3, hj4⟩ := findSuperIdx_some b.grid 0 idx h
  have hij : idx = j := by omega
  subst hij
  exact ⟨hj2, hj3, hj4⟩

theorem findSuperposition_ne_none (b : Sudoku) (hne : b.noEmpty)
    (hs : b.is_solved = false) : b.findSuperposition ≠ none := by
  intro hn
  obtain ⟨c, hc, hsup⟩ := exists_super_of_not_solved b hne hs
  have := (findSuperIdx_none b.grid 0).mp hn c hc
  rw [hsup] at this
  cases this

/-! ### tryCandidates lemmas -/

theorem tryCandidates_nil (solver : Sudoku → SolveResult) (b : Sudoku) (idx : Nat) :
    tryCandidates solver b idx [] = SolveResult.ok b := rfl

theorem tryCandidates_cons (solver : Sudoku → SolveResult) (b : Sudoku) (idx v : Nat)
    (vs : List Nat) :
    tryCandidates solver b idx (v :: vs) =
      match solver (b.setCell idx (Cell.Collapsed v)) with
      | SolveResult.outOfFuel => SolveResult.outOfFuel
      | SolveResult.panicked => SolveResult.panicked
      | SolveResult.ok c =>
          if c.is_solved then SolveResult.ok c
          else tryCandidates solver b idx vs := rfl

theorem tryCandidates_ne_outOfFuel (solver : Sudoku → SolveResult) (b : Sudoku) (idx : Nat)
    (vs : List Nat)
    (h : ∀ v ∈ vs, solver (b.setCell idx (Cell.Collapsed v)) ≠ SolveResult.outOfFuel) :
    tryCandidates solver b idx vs ≠ SolveResult.outOfFuel := by
  induction vs with
  | nil => rw [tryCandidates_nil]; simp
  | cons v vs ih =>
    rw [tryCandidates_cons]
    cases hr : solver (b.setCell idx (Cell.Collapsed v)) with
    | outOfFuel => exact absurd hr (h v (List.mem_cons_self v vs))
    | panicked => simp
    | ok c =>
      show (if c.is_solved = true then SolveResult.ok c else tryCandidates solver b idx vs) ≠
        SolveResult.outOfFuel
      by_cases hsol : c.is_solved = true
      · rw [if_pos hsol]; simp
      · rw [if_neg hsol]
        exact ih (fun v2 hv2 => h v2 (List.mem_cons_of_mem _ hv2))

theorem tryCandidates_ne_panicked (solver : Sudoku → SolveResult) (b : Sudoku) (idx : Nat)
    (vs : List Nat)
    (h : ∀ v ∈ vs, solver (b.setCell idx (Cell.Collapsed v)) ≠ SolveResult.panicked) :
    tryCandidates solver b idx vs ≠ SolveResult.panicked := by
  induction vs with
  | nil => rw [tryCandidates_nil]; simp
  | cons v vs ih =>
    rw [tryCandidates_cons]
    cases hr : solver (b.setCell idx (Cell.Collapsed v)) with
    | outOfFuel => simp
    | panicked => exact absurd hr (h v (List.mem_cons_self v vs))
    | ok c =>
      show (if c.is_solved = true then SolveResult.ok c else tryCandidates solver b idx vs) ≠
        SolveResult.panicked
      by_cases hsol : c.is_solved = true
      · rw [if_pos hsol]; simp
      · rw [if_neg hsol]
        exact ih (fun v2 hv2 => h v2 (List.mem_cons_of_mem _ hv2))

theorem tryCandidates_ok_fixedPres (solver : Sudoku → SolveResult) (b : Sudoku) (idx : Nat)
    (vs : List Nat) (hcell : isSuper (b.getCell idx) = true)
    (hrec : ∀ v ∈ vs, ∀ c, solver (b.setCell idx (Cell.Collapsed v)) = SolveResult.ok c →
      FixedPres (b.setCell idx (Cell.Collapsed v)) c) :
    ∀ b2, tryCandidates solver b idx vs = SolveResult.ok b2 → FixedPres b b2 := by
  induction vs with
  | nil =>
    intro b2 h
    rw [tryCandidates_nil] at h
    cases h
    exact fixedPres_refl b
  | cons v vs ih =>
    intro b2 h
    rw [tryCandidates_cons] at h
    cases hr : solver (b.setCell idx (Cell.Collapsed v)) with
    | outOfFuel => rw [hr] at h; cases h
    | panicked => rw [hr] at h; cases h
    | ok c =>
      rw [hr] at h
      have h2 : (if c.is_solved = true then SolveResult.ok c
          else tryCandidates solver b idx vs) = SolveResult.ok b2 := h
      by_cases hsol : c.is_solved = true
      · rw [if_pos hsol] at h2
        cases h2
        exact fixedPres_trans _ _ _ (fixedPres_setCell_super b idx _ hcell)
          (hrec v (List.mem_cons_self v vs) b2 hr)
      · rw [if_neg hsol] at h2
        exact ih (fun v2 hv2 => hrec v2 (List.mem_cons_of_mem _ hv2)) b2 h2

/-! ### solveAux lemmas -/

theorem solveAux_zero (b : Sudoku) : Sudoku.solveAux 0 b = SolveResult.outOfFuel := rfl

theorem solveAux_succ (fuel : Nat) (b : Sudoku) :
    Sudoku.solveAux (fuel + 1) b = Sudoku.solveBody b (Sudoku.solveAux fuel) := rfl

theorem backtrackAt_super (b2 : Sudoku) (idx : Nat) (s : List Bool)
    (recur : Sudoku → SolveResult) (hgc : b2.getCell idx = Cell.Superposition s) :
    Sudoku.backtrackAt b2 idx recur = tryCandidates recur b2 idx (candidateValues s 0) := by
  unfold Sudoku.backtrackAt
  rw [hgc]

theorem backtrackAt_not_super (b2 : Sudoku) (idx : Nat) (recur : Sudoku → SolveResult)
    (hgc : isSuper (b2.getCell idx) = false) :
    Sudoku.backtrackAt b2 idx recur = SolveResult.panicked := by
  unfold Sudoku.backtrackAt
  cases hc : b2.getCell idx with
  | Superposition s => rw [hc] at hgc; cases hgc
  | Empty => rfl
  | Fixed n => rfl
  | Collapsed n => rfl

theorem backtrack_none (b2 : Sudoku) (recur : Sudoku → SolveResult)
    (hfs : b2.findSuperposition = none) :
    Sudoku.backtrack b2 recur = SolveResult.panicked := by
  unfold Sudoku.backtrack
  rw [hfs]

theorem backtrack_some (b2 : Sudoku) (idx : Nat) (recur : Sudoku → SolveResult)
    (hfs : b2.findSuperposition = some idx) :
    Sudoku.backtrack b2 recur = Sudoku.backtrackAt b2 idx recur := by
  unfold Sudoku.backtrack
  rw [hfs]

theorem solveBody_outOfFuel (b : Sudoku) (recur : Sudoku → SolveResult)
    (h : Sudoku.solveLoop loopFuel b 0 = LoopResult.outOfFuel) :
    Sudoku.solveBody b recur = SolveResult.outOfFuel := by
  unfold Sudoku.solveBody
  rw [h]

theorem solveBody_aborted (b b2 : Sudoku) (recur : Sudoku → SolveResult)
    (h : Sudoku.solveLoop loopFuel b 0 = LoopResult.aborted b2) :
    Sudoku.solveBody b recur = SolveResult.ok b2 := by
  unfold Sudoku.solveBody
  rw [h]

theorem solveBody_finished (b b2 : Sudoku) (recur : Sudoku → SolveResult)
    (h : Sudoku.solveLoop loopFuel b 0 = LoopResult.finished b2) :
    Sudoku.solveBody b recur =
      if b2.is_solved then SolveResult.ok b2 else Sudoku.backtrack b2 recur := by
  unfold Sudoku.solveBody
  rw [h]

theorem loopFuel_eq : loopFuel = 410 := rfl

theorem solveLoop_start_ne_outOfFuel (b : Sudoku) (hlen : b.grid.length = 81) :
    Sudoku.solveLoop loopFuel b 0 ≠ LoopResult.outOfFuel := by
  apply solveLoop_ne_outOfFuel loopFuel b 0 (by omega)
  have h1 : b.numSuper ≤ 81 := hlen ▸ numSuper_le_length b
  rw [loopFuel_eq]
  omega

theorem solveAux_ne_outOfFuel : ∀ (fuel : Nat) (b : Sudoku), b.grid.length = 81 →
    b.numSuper < fuel → Sudoku.solveAux fuel b ≠ SolveResult.outOfFuel := by
  intro fuel
  induction fuel with
  | zero =>
    intro b hlen hns
    exact absurd hns (Nat.not_lt_zero _)
  | succ fuel ih =>
    intro b hlen hns
    rw [solveAux_succ]
    cases hsl : Sudoku.solveLoop loopFuel b 0 with
    | outOfFuel => exact absurd hsl (solveLoop_start_ne_outOfFuel b hlen)
    | aborted b2 =>
      rw [solveBody_aborted b b2 _ hsl]
      simp
    | finished b2 =>
      rw [solveBody_finished b b2 _ hsl]
      obtain ⟨hle, hlen2, _, _⟩ := solveLoop_facts loopFuel b 0 b2 (Or.inr hsl)
      by_cases hsolved : b2.is_solved = true
      · rw [if_pos hsolved]; simp
      · rw [if_neg hsolved]
        cases hfs : b2.findSuperposition with
        | none =>
          rw [backtrack_none b2 _ hfs]
          simp
        | some idx =>
          rw [backtrack_some b2 idx _ hfs]
          cases hgc : b2.getCell idx with
          | Empty => rw [backtrackAt_not_super b2 idx _ (by rw [hgc]; rfl)]; simp
          | Fixed n => rw [backtrackAt_not_super b2 idx _ (by rw [hgc]; rfl)]; simp
          | Collapsed n => rw [backtrackAt_not_super b2 idx _ (by rw [hgc]; rfl)]; simp
          | Superposition s =>
            rw [backtrackAt_super b2 idx s _ hgc]
            apply tryCandidates_ne_outOfFuel
            intro v hv
            apply ih
            · rw [length_setCell, hlen2, hlen]
            · have h1 : (b2.setCell idx (Cell.Collapsed v)).numSuper < b2.numSuper :=
                numSuper_setCell_lt b2 idx _ s hgc rfl
              omega

theorem solveAux_ne_panicked : ∀ (fuel : Nat) (b : Sudoku), b.noEmpty →
    Sudoku.solveAux fuel b ≠ SolveResult.panicked := by
  intro fuel
  induction fuel with
  | zero =>
    intro b hne
    rw [solveAux_zero]
    simp
  | succ fuel ih =>
    intro b hne
    rw [solveAux_succ]
    cases hsl : Sudoku.solveLoop loopFuel b 0 with
    | outOfFuel =>
      rw [solveBody_outOfFuel b _ hsl]
      simp
    | aborted b2 =>
      rw [solveBody_aborted b b2 _ hsl]
      simp
    | finished b2 =>
      rw [solveBody_finished b b2 _ hsl]
      obtain ⟨_, _, _, hne2⟩ := solveLoop_facts loopFuel b 0 b2 (Or.inr hsl)
      have hneb2 : b2.noEmpty := hne2 hne
      by_cases hsolved : b2.is_solved = true
      · rw [if_pos hsolved]; simp
      · rw [if_neg hsolved]
        have hfalse : b2.is_solved = false := by
          cases hx : b2.is_solved with
          | true => exact absurd hx hsolved
          | false => rfl
        cases hfs : b2.findSuperposition with
        | none => exact absurd hfs (findSuperposition_ne_none b2 hneb2 hfalse)
        | some idx =>
          rw [backtrack_some b2 idx _ hfs]
          have hsup := (findSuperposition_some b2 idx hfs).2.1
          cases hgc : b2.getCell idx with
          | Empty => rw [hgc] at hsup; cases hsup
          | Fixed n => rw [hgc] at hsup; cases hsup
          | Collapsed n => rw [hgc] at hsup; cases hsup
          | Superposition s =>
            rw [backtrackAt_super b2 idx s _ hgc]
            apply tryCandidates_ne_panicked
            intro v hv
            apply ih
            exact noEmpty_setCell b2 idx _ hneb2 (by simp)

theorem solveAux_ok_fixedPres : ∀ (fuel : Nat) (b b2 : Sudoku),
    Sudoku.solveAux fuel b = SolveResult.ok b2 → FixedPres b b2 := by
  intro fuel
  induction fuel with
  | zero =>
    intro b b2 h
    rw [solveAux_zero] at h
    cases h
  | succ fuel ih =>
    intro b b2 h
    rw [solveAux_succ] at h
    cases hsl : Sudoku.solveLoop loopFuel b 0 with
    | outOfFuel =>
      rw [solveBody_outOfFuel b _ hsl] at h
      cases h
    | aborted b3 =>
      rw [solveBody_aborted b b3 _ hsl] at h
      cases h
      exact (solveLoop_facts loopFuel b 0 b2 (Or.inl hsl)).2.2.1
    | finished b3 =>
      rw [solveBody_finished b b3 _ hsl] at h
      have hpres3 : FixedPres b b3 := (solveLoop_facts loopFuel b 0 b3 (Or.inr hsl)).2.2.1
      by_cases hsolved : b3.is_solved = true
      · rw [if_pos hsolved] at h
        cases h
        exact hpres3
      · rw [if_neg hsolved] at h
        cases hfs : b3.findSuperposition with
        | none =>
          rw [backtrack_none b3 _ hfs] at h
          cases h
        | some idx =>
          rw [backtrack_some b3 idx _ hfs] at h
          cases hgc : b3.getCell idx with
          | Empty =>
            rw [backtrackAt_not_super b3 idx _ (by rw [hgc]; rfl)] at h
            cases h
          | Fixed n =>
            rw [backtrackAt_not_super b3 idx _ (by rw [hgc]; rfl)] at h
            cases h
          | Collapsed n =>
            rw [backtrackAt_not_super b3 idx _ (by rw [hgc]; rfl)] at h
            cases h
          | Superposition s =>
            rw [backtrackAt_super b3 idx s _ hgc] at h
            have hpres := tryCandidates_ok_fixedPres (Sudoku.solveAux fuel) b3 idx
              (candidateValues s 0) (isSuper_getCell_of_eq b3 idx s hgc)
              (fun v hv c hc => ih _ c hc) b2 h
            exact fixedPres_trans _ _ _ hpres3 hpres

theorem solveAux_solved (fuel : Nat) (b : Sudoku) (h : b.is_solved = true) :
    Sudoku.solveAux (fuel + 1) b = SolveResult.ok b := by
  rw [solveAux_succ]
  have hsl : Sudoku.solveLoop loopFuel b 0 = LoopResult.finished b :=
    solveLoop_solved 409 b 0 h
  rw [solveBody_finished b b _ hsl, if_pos h]

/-! ### initialize_superpositions lemmas -/

theorem initCell_ok_iff (c : Cell) :
    (initCell c).isSome = true ↔ (c = Cell.Empty ∨ ∃ n, c = Cell.Fixed n) := by
  cases c <;> simp [initCell]

theorem initCell_eq_initFull (c : Cell) (h : c = Cell.Empty ∨ ∃ n, c = Cell.Fixed n) :
    initCell c = some (initFull c) := by
  rcases h with h | ⟨n, h⟩ <;> subst h <;> rfl

theorem initCells_of_ok : ∀ (l : List Cell),
    (∀ c ∈ l, c = Cell.Empty ∨ ∃ n, c = Cell.Fixed n) →
    initCells l = some (l.map initFull) := by
  intro l
  induction l with
  | nil => intro h; rfl
  | cons c t ih =>
    intro h
    unfold initCells
    rw [initCell_eq_initFull c (h c (List.mem_cons_self c t))]
    rw [ih (fun x hx => h x (List.mem_cons_of_mem _ hx))]
    rfl

theorem initCells_some : ∀ (l l2 : List Cell), initCells l = some l2 →
    l2 = l.map initFull ∧ ∀ c ∈ l, c = Cell.Empty ∨ ∃ n, c = Cell.Fixed n := by
  intro l
  induction l with
  | nil =>
    intro l2 h
    have h2 : some ([] : List Cell) = some l2 := h
    cases h2
    exact ⟨rfl, by simp⟩
  | cons c t ih =>
    intro l2 h
    unfold initCells at h
    cases hic : initCell c with
    | none => rw [hic] at h; cases h
    | some c2 =>
      rw [hic] at h
      cases hit : initCells t with
      | none => rw [hit] at h; cases h
      | some t2 =>
        rw [hit] at h
        have h2 : some (c2 :: t2) = some l2 := h
        cases h2
        obtain ⟨ht2, hok⟩ := ih t2 hit
        have hcok : c = Cell.Empty ∨ ∃ n, c = Cell.Fixed n := by
          cases c with
          | Empty => exact Or.inl rfl
          | Fixed n => exact Or.inr ⟨n, rfl⟩
          | Collapsed n => cases hic
          | Superposition s => cases hic
        have hc2 : c2 = initFull c := by
          have := initCell_eq_initFull c hcok
          rw [hic] at this
          exact Option.some.inj this
        constructor
        · rw [List.map_cons, ht2, hc2]
        · intro x hx
          rcases List.mem_cons.mp hx with hx | hx
          · subst hx; exact hcok
          · exact hok x hx

theorem initCells_none : ∀ (l : List Cell) (c0 : Cell), c0 ∈ l → initCell c0 = none →
    initCells l = none := by
  intro l
  induction l with
  | nil => intro c0 h; simp at h
  | cons c t ih =>
    intro c0 hmem hbad
    unfold initCells
    rcases List.mem_cons.mp hmem with h | h
    · subst h
      rw [hbad]
    · cases hic : initCell c with
      | none => rfl
      | some c2 => rw [ih c0 h hbad]

theorem init_eq_some (b b2 : Sudoku) (h : b.initialize_superpositions = some b2) :
    b2.grid = b.grid.map initFull ∧
      ∀ c ∈ b.grid, c = Cell.Empty ∨ ∃ n, c = Cell.Fixed n := by
  unfold Sudoku.initialize_superpositions at h
  cases hic : initCells b.grid with
  | none => rw [hic] at h; cases h
  | some l2 =>
    rw [hic] at h
    have h2 : some (Sudoku.mk l2) = some b2 := h
    cases h2
    obtain ⟨hl2, hok⟩ := initCells_some b.grid l2 hic
    exact ⟨hl2, hok⟩

theorem init_of_ok (b : Sudoku) (h : ∀ c ∈ b.grid, c = Cell.Empty ∨ ∃ n, c = Cell.Fixed n) :
    b.initialize_superpositions = some ⟨b.grid.map initFull⟩ := by
  unfold Sudoku.initialize_superpositions
  rw [initCells_of_ok b.grid h]
  rfl

theorem init_none (b : Sudoku) (c0 : Cell) (hmem : c0 ∈ b.grid)
    (hbad : ¬(c0 = Cell.Empty ∨ ∃ n, c0 = Cell.Fixed n)) :
    b.initialize_superpositions = none := by
  unfold Sudoku.initialize_superpositions
  have hbad2 : initCell c0 = none := by
    cases c0 with
    | Empty => exact absurd (Or.inl rfl) hbad
    | Fixed n => exact absurd (Or.inr ⟨n, rfl⟩) hbad
    | Collapsed n => rfl
    | Superposition s => rfl
  rw [initCells_none b.grid c0 hmem hbad2]
  rfl

theorem initFull_ne_empty (c : Cell) (h : c = Cell.Empty ∨ ∃ n, c = Cell.Fixed n) :
    initFull c ≠ Cell.Empty := by
  rcases h with h | ⟨n, h⟩ <;> subst h <;> simp [initFull]

theorem init_noEmpty (b b2 : Sudoku) (h : b.initialize_superpositions = some b2) :
    b2.noEmpty := by
  obtain ⟨hgrid, hok⟩ := init_eq_some b b2 h
  intro c hc
  rw [hgrid] at hc
  obtain ⟨c0, hc0, hceq⟩ := List.mem_map.mp hc
  subst hceq
  exact initFull_ne_empty c0 (hok c0 hc0)

theorem init_length (b b2 : Sudoku) (h : b.initialize_superpositions = some b2) :
    b2.grid.length = b.grid.length := by
  rw [(init_eq_some b b2 h).1, List.length_map]

theorem getD_ne_default_lt {α : Type} (l : List α) (i : Nat) (d : α)
    (h : l.getD i d ≠ d) : i < l.length := by
  by_contra hge
  rw [List.getD_eq_default _ _ (Nat.le_of_not_lt hge)] at h
  exact h rfl

theorem init_fixed_pres (b b2 : Sudoku) (h : b.initialize_superpositions = some b2) :
    FixedPres b b2 := by
  obtain ⟨hgrid, hok⟩ := init_eq_some b b2 h
  intro i n hi
  have hlt : i < b.grid.length := by
    apply getD_ne_default_lt b.grid i Cell.Empty
    show b.getCell i ≠ Cell.Empty
    rw [hi]
    simp
  show b2.grid.getD i Cell.Empty = Cell.Fixed n
  rw [hgrid, getD_map_of_lt initFull b.grid i Cell.Empty Cell.Empty hlt]
  have : b.grid.getD i Cell.Empty = Cell.Fixed n := hi
  rw [this]
  rfl

/-! ### from_zero_grid lemmas -/

theorem from_zero_grid_cells (g : List (List Nat)) :
    ∀ c ∈ (Sudoku.from_zero_grid g).grid, c = Cell.Empty ∨ ∃ n, c = Cell.Fixed n := by
  intro c hc
  unfold Sudoku.from_zero_grid at hc
  obtain ⟨v, hv, hceq⟩ := List.mem_map.mp hc
  subst hceq
  by_cases hz : v = 0
  · rw [if_pos hz]; exact Or.inl rfl
  · rw [if_neg hz]; exact Or.inr ⟨v, rfl⟩

theorem flatten_length_of_shape : ∀ (g : List (List Nat)),
    (∀ r ∈ g, r.length = 9) → g.flatten.length = 9 * g.length := by
  intro g
  induction g with
  | nil => intro h; rfl
  | cons r t ih =>
    intro h
    rw [List.flatten_cons, List.length_append, h r (List.mem_cons_self r t),
      ih (fun x hx => h x (List.mem_cons_of_mem _ hx))]
    simp [Nat.mul_succ, Nat.add_comm]

theorem from_zero_grid_length (g : List (List Nat)) (h9 : g.length = 9)
    (hr : ∀ r ∈ g, r.length = 9) : (Sudoku.from_zero_grid g).grid.length = 81 := by
  unfold Sudoku.from_zero_grid
  rw [List.length_map, flatten_length_of_shape g hr, h9]

theorem from_zero_grid_all_fixed (g : List (List Nat))
    (h : ∀ r ∈ g, ∀ v ∈ r, v ≠ 0) :
    ∀ c ∈ (Sudoku.from_zero_grid g).grid, ∃ n, c = Cell.Fixed n := by
  intro c hc
  unfold Sudoku.from_zero_grid at hc
  obtain ⟨v, hv, hceq⟩ := List.mem_map.mp hc
  subst hceq
  obtain ⟨r, hr, hvr⟩ := List.mem_flatten.mp hv
  rw [if_neg (h r hr v hvr)]
  exact ⟨v, rfl⟩

theorem is_solved_of_all_fixed (b : Sudoku) (h : ∀ c ∈ b.grid, ∃ n, c = Cell.Fixed n) :
    b.is_solved = true := by
  unfold Sudoku.is_solved
  rw [List.all_eq_true]
  intro c hc
  obtain ⟨n, hn⟩ := h c hc
  subst hn
  rfl

theorem map_initFull_of_all_fixed : ∀ (l : List Cell),
    (∀ c ∈ l, ∃ n, c = Cell.Fixed n) → l.map initFull = l := by
  intro l
  induction l with
  | nil => intro h; rfl
  | cons c t ih =>
    intro h
    rw [List.map_cons, ih (fun x hx => h x (List.mem_cons_of_mem _ hx))]
    obtain ⟨n, hn⟩ := h c (List.mem_cons_self c t)
    subst hn
    rfl

/-! ### candidateValues lemmas -/

theorem candidateValues_gt : ∀ (s : List Bool) (k v : Nat),
    v ∈ candidateValues s k → k < v := by
  intro s
  induction s with
  | nil => intro k v h; simp [candidateValues] at h
  | cons c rest ih =>
    intro k v h
    unfold candidateValues at h
    by_cases hc : c = true
    · rw [if_pos hc] at h
      rcases List.mem_cons.mp h with h | h
      · omega
      · have := ih (k + 1) v h
        omega
    · rw [if_neg hc] at h
      have := ih (k + 1) v h
      omega

theorem candidateValues_pairwise : ∀ (s : List Bool) (k : Nat),
    List.Pairwise (· < ·) (candidateValues s k) := by
  intro s
  induction s with
  | nil => intro k; simp [candidateValues]
  | cons c rest ih =>
    intro k
    unfold candidateValues
    by_cases hc : c = true
    · rw [if_pos hc]
      rw [List.pairwise_cons]
      exact ⟨fun v hv => candidateValues_gt rest (k + 1) v hv, ih (k + 1)⟩
    · rw [if_neg hc]
      exact ih (k + 1)

theorem candidateValues_mem : ∀ (s : List Bool) (k v : Nat),
    v ∈ candidateValues s k ↔ ∃ j, s.getD j false = true ∧ v = k + j + 1 := by
  intro s
  induction s with
  | nil =>
    intro k v
    simp [candidateValues]
  | cons c rest ih =>
    intro k v
    unfold candidateValues
    by_cases hc : c = true
    · rw [if_pos hc]
      constructor
      · intro h
        rcases List.mem_cons.mp h with h | h
        · exact ⟨0, by simpa using hc, by omega⟩
        · obtain ⟨j, hj, hv⟩ := (ih (k + 1) v).mp h
          exact ⟨j + 1, by simpa using hj, by omega⟩
      · intro ⟨j, hj, hv⟩
        cases j with
        | zero =>
          have : v = k + 1 := by omega
          subst this
          exact List.mem_cons_self _ _
        | succ m =>
          apply List.mem_cons_of_mem
          apply (ih (k + 1) v).mpr
          exact ⟨m, by simpa using hj, by omega⟩
    · rw [if_neg hc]
      constructor
      · intro h
        obtain ⟨j, hj, hv⟩ := (ih (k + 1) v).mp h
        exact ⟨j + 1, by simpa using hj, by omega⟩
      · intro ⟨j, hj, hv⟩
        cases j with
        | zero =>
          simp only [List.getD_cons_zero] at hj
          exact absurd hj hc
        | succ m =>
          apply (ih (k + 1) v).mpr
          exact ⟨m, by simpa using hj, by omega⟩

/-! ### propagate idempotence core -/

theorem collapsed_pres_propagate (b : Sudoku) (idx j n : Nat)
    (h : b.getCell j = Cell.Collapsed n) :
    (b.propagate idx).getCell j = Cell.Collapsed n := by
  cases hc : b.getCell idx with
  | Empty => rw [propagate_eq_empty b idx hc]; exact h
  | Superposition s => rw [propagate_eq_super b idx s hc]; exact h
  | Fixed m => rw [propagate_eq_fixed b idx m hc]; exact getCell_clearList_collapsed _ _ _ _ _ h
  | Collapsed m =>
    rw [propagate_eq_collapsed b idx m hc]
    exact getCell_clearList_collapsed _ _ _ _ _ h

theorem propagate_propagate (b : Sudoku) (idx : Nat) :
    (b.propagate idx).propagate idx = b.propagate idx := by
  cases hc : b.getCell idx with
  | Empty =>
    have h0 := propagate_eq_empty b idx hc
    rw [h0]
    exact h0
  | Superposition s =>
    have h0 := propagate_eq_super b idx s hc
    rw [h0]
    exact h0
  | Fixed n =>
    have h0 := propagate_eq_fixed b idx n hc
    have hcell : (b.propagate idx).getCell idx = Cell.Fixed n :=
      fixedPres_propagate b idx idx n hc
    have h1 := propagate_eq_fixed (b.propagate idx) idx n hcell
    rw [h1, h0, clearList_clearList]
  | Collapsed n =>
    have h0 := propagate_eq_collapsed b idx n hc
    have hcell : (b.propagate idx).getCell idx = Cell.Collapsed n :=
      collapsed_pres_propagate b idx idx n hc
    have h1 := propagate_eq_collapsed (b.propagate idx) idx n hcell
    rw [h1, h0, clearList_clearList]

/-! ### Shared termination helper -/

theorem solve_terminates (g : List (List Nat)) (h9 : g.length = 9)
    (hr : ∀ r ∈ g, r.length = 9) :
    (Sudoku.from_zero_grid g).initialize_superpositions =
      some ⟨(Sudoku.from_zero_grid g).grid.map initFull⟩ ∧
    Sudoku.solve (⟨(Sudoku.from_zero_grid g).grid.map initFull⟩ : Sudoku) ≠
      SolveResult.outOfFuel := by
  refine ⟨init_of_ok _ (from_zero_grid_cells g), ?_⟩
  show Sudoku.solveAux solveFuel _ ≠ SolveResult.outOfFuel
  have hlen : ((Sudoku.from_zero_grid g).grid.map initFull).length = 81 := by
    rw [List.length_map]
    exact from_zero_grid_length g h9 hr
  apply solveAux_ne_outOfFuel solveFuel _ hlen
  have hns : (⟨(Sudoku.from_zero_grid g).grid.map initFull⟩ : Sudoku).numSuper ≤ 81 := by
    rw [← hlen]
    exact numSuper_le_length _
  have hsf : solveFuel = 82 := rfl
  omega

/-! ### Claim theorems -/

/-- Claim C8: propagation is idempotent: for every board state and every
index idx, propagate(idx) run twice produces exactly the same board as
running it once. -/
theorem claim_C8 (b : Sudoku) (idx : Nat) :
    (b.propagate idx).propagate idx = b.propagate idx :=
  propagate_propagate b idx

/-- Claim C6: if the collapse scan meets a Superposition cell with zero
remaining candidates, the whole pass aborts, the aborted board still holds
that zero-candidate Superposition cell and is not solved; an aborted
while-loop comes from such an aborted collapse pass over some iterate, and
solve then returns that board immediately (no backtracking in that call). -/
theorem claim_C6 :
    (∀ (idxs : List Nat) (b b2 : Sudoku),
      Sudoku.collapsePass b false idxs = PassResult.aborted b2 →
      (∃ i ∈ idxs, ∃ s, b2.getCell i = Cell.Superposition s ∧
        Cell.count_superstates (b2.getCell i) = some 0) ∧ b2.is_solved = false) ∧
    (∀ (fuel : Nat) (b : Sudoku) (iters : Nat) (b2 : Sudoku),
      Sudoku.solveLoop fuel b iters = LoopResult.aborted b2 →
      ∃ bk : Sudoku, (bk.propagationPass).collapsePass false (List.range BOARD_SIZE) =
        PassResult.aborted b2) ∧
    (∀ (fuel : Nat) (b b2 : Sudoku),
      Sudoku.solveLoop loopFuel b 0 = LoopResult.aborted b2 →
      Sudoku.solveAux (fuel + 1) b = SolveResult.ok b2) := by
  refine ⟨?_, solveLoop_aborted_origin, ?_⟩
  · intro idxs b b2 h
    obtain ⟨i, hi, s, hs, hc⟩ := collapsePass_aborted_zero idxs b false b2 h
    exact ⟨⟨i, hi, s, hs, hc⟩, is_solved_false_of_super b2 i s hs⟩
  · intro fuel b b2 h
    rw [solveAux_succ, solveBody_aborted b b2 _ h]

/-- Witness for C6 at a concrete one-cell board whose only cell is a
zero-candidate Superposition. -/
theorem claim_C6_witness :
    (∃ i ∈ ([0] : List Nat), ∃ s, bAbort.getCell i = Cell.Superposition s ∧
      Cell.count_superstates (bAbort.getCell i) = some 0) ∧ bAbort.is_solved = false :=
  claim_C6.1 [0] bAbort bAbort (by decide)

/-- Claim C7: the backtracking stage selects the lowest-index Superposition
cell, candidate values are exactly the true flags in ascending order, the
solver hands that cell's candidates to the candidate loop, the first clone
whose recursive solve is solved replaces the board wholesale with an
immediate return, and if every candidate fails the board is returned
exactly as it was at entry to the backtracking stage. -/
theorem claim_C7 :
    (∀ (b : Sudoku) (idx : Nat), b.findSuperposition = some idx →
      isSuper (b.getCell idx) = true ∧ ∀ j, j < idx → isSuper (b.getCell j) = false) ∧
    (∀ s : List Bool, List.Pairwise (· < ·) (candidateValues s 0) ∧
      ∀ v, v ∈ candidateValues s 0 ↔ ∃ j, s.getD j false = true ∧ v = j + 1) ∧
    (∀ (fuel : Nat) (b b2 : Sudoku) (idx : Nat) (s : List Bool),
      Sudoku.solveLoop loopFuel b 0 = LoopResult.finished b2 → b2.is_solved = false →
      b2.findSuperposition = some idx → b2.getCell idx = Cell.Superposition s →
      Sudoku.solveAux (fuel + 1) b =
        tryCandidates (Sudoku.solveAux fuel) b2 idx (candidateValues s 0)) ∧
    (∀ (solver : Sudoku → SolveResult) (b : Sudoku) (idx v : Nat) (vs : List Nat)
      (c : Sudoku),
      solver (b.setCell idx (Cell.Collapsed v)) = SolveResult.ok c → c.is_solved = true →
      tryCandidates solver b idx (v :: vs) = SolveResult.ok c) ∧
    (∀ (solver : Sudoku → SolveResult) (b : Sudoku) (idx : Nat) (vs : List Nat),
      (∀ v ∈ vs, ∃ c, solver (b.setCell idx (Cell.Collapsed v)) = SolveResult.ok c ∧
        c.is_solved = false) →
      tryCandidates solver b idx vs = SolveResult.ok b) := by
  refine ⟨?_, ?_, ?_, ?_, ?_⟩
  · intro b idx h
    obtain ⟨_, h2, h3⟩ := findSuperposition_some b idx h
    exact ⟨h2, h3⟩
  · intro s
    refine ⟨candidateValues_pairwise s 0, ?_⟩
    intro v
    rw [candidateValues_mem s 0 v]
    constructor
    · intro ⟨j, hj, hv⟩
      exact ⟨j, hj, by omega⟩
    · intro ⟨j, hj, hv⟩
      exact ⟨j, hj, by omega⟩
  · intro fuel b b2 idx s hloop hunsolved hfs hgc
    have hns : ¬ b2.is_solved = true := by
      rw [hunsolved]
      simp
    rw [solveAux_succ, solveBody_finished b b2 _ hloop, if_neg hns,
      backtrack_some b2 idx _ hfs, backtrackAt_super b2 idx s _ hgc]
  · intro solver b idx v vs c hsol hsolved
    rw [tryCandidates_cons, hsol]
    show (if c.is_solved = true then SolveResult.ok c else tryCandidates solver b idx vs) =
      SolveResult.ok c
    rw [if_pos hsolved]
  · intro solver b idx vs h
    induction vs with
    | nil => rfl
    | cons v vs ih =>
      obtain ⟨c, hc, hcf⟩ := h v (List.mem_cons_self v vs)
      rw [tryCandidates_cons, hc]
      show (if c.is_solved = true then SolveResult.ok c else tryCandidates solver b idx vs) =
        SolveResult.ok b
      rw [if_neg (by rw [hcf]; simp)]
      exact ih (fun v2 hv2 => h v2 (List.mem_cons_of_mem _ hv2))

/-- Witness for C7: the first-success rule of the candidate loop at a
concrete solver and board. -/
theorem claim_C7_witness :
    tryCandidates (fun _ => SolveResult.ok bOnes) bAbort 0 (1 :: [2]) =
      SolveResult.ok bOnes :=
  claim_C7.2.2.2.1 (fun _ => SolveResult.ok bOnes) bAbort 0 1 [2] bOnes rfl (by decide)

/-- Claim C9: after initialize_superpositions no cell is Empty; on any
board with no Empty cell, an unsolved board always contains a
Superposition cell (so the position() search succeeds), and solve never
hits the expect/unreachable panic of the backtracking stage. -/
theorem claim_C9 :
    (∀ b0 b : Sudoku, b0.initialize_superpositions = some b → b.noEmpty) ∧
    (∀ b : Sudoku, b.noEmpty →
      (b.is_solved = false → ∃ idx s, b.findSuperposition = some idx ∧
        b.getCell idx = Cell.Superposition s) ∧
      (∀ fuel, Sudoku.solveAux fuel b ≠ SolveResult.panicked) ∧
      Sudoku.solve b ≠ SolveResult.panicked) := by
  constructor
  · intro b0 b h
    exact init_noEmpty b0 b h
  · intro b hne
    refine ⟨?_, fun fuel => solveAux_ne_panicked fuel b hne,
      solveAux_ne_panicked solveFuel b hne⟩
    intro hsf
    cases hfs : b.findSuperposition with
    | none => exact absurd hfs (findSuperposition_ne_none b hne hsf)
    | some idx =>
      have hsup := (findSuperposition_some b idx hfs).2.1
      obtain ⟨s, hs⟩ := (isSuper_iff _).mp hsup
      exact ⟨idx, s, rfl, hs⟩

/-- Witness for C9 at the concrete one-cell Superposition board. -/
theorem claim_C9_witness :
    (bAbort.is_solved = false → ∃ idx s, bAbort.findSuperposition = some idx ∧
      bAbort.getCell idx = Cell.Superposition s) ∧
    (∀ fuel, Sudoku.solveAux fuel bAbort ≠ SolveResult.panicked) ∧
    Sudoku.solve bAbort ≠ SolveResult.panicked :=
  claim_C9.2 bAbort (by
    show ∀ c ∈ bAbort.grid, c ≠ Cell.Empty
    decide)

/-- Claim C10: initialize_superpositions maps every Empty cell to a
Superposition with all nine candidate flags true, leaves every Fixed cell
unchanged, and panics (None) whenever the board holds a Collapsed or
Superposition cell - in particular on a second call when the first call
converted at least one blank. -/
theorem claim_C10 (b : Sudoku) :
    ((∀ c ∈ b.grid, c = Cell.Empty ∨ ∃ n, c = Cell.Fixed n) →
      b.initialize_superpositions = some ⟨b.grid.map initFull⟩ ∧
      initFull Cell.Empty = Cell.Superposition (List.replicate 9 true) ∧
      (∀ n, initFull (Cell.Fixed n) = Cell.Fixed n)) ∧
    (∀ c0 ∈ b.grid, (∀ n, c0 ≠ Cell.Fixed n) → c0 ≠ Cell.Empty →
      b.initialize_superpositions = none) ∧
    (∀ b2, b.initialize_superpositions = some b2 → (∃ c ∈ b.grid, c = Cell.Empty) →
      b2.initialize_superpositions = none) := by
  refine ⟨?_, ?_, ?_⟩
  · intro hok
    exact ⟨init_of_ok b hok, rfl, fun n => rfl⟩
  · intro c0 hmem hnf hne
    apply init_none b c0 hmem
    rintro (h | ⟨n, h⟩)
    · exact hne h
    · exact hnf n h
  · intro b2 hinit hempty
    obtain ⟨c, hc, hce⟩ := hempty
    subst hce
    obtain ⟨hgrid, hok⟩ := init_eq_some b b2 hinit
    apply init_none b2 (Cell.Superposition (List.replicate 9 true))
    · rw [hgrid]
      exact List.mem_map.mpr ⟨Cell.Empty, hc, rfl⟩
    · rintro (h | ⟨n, h⟩) <;> simp at h

/-- Witness for C10 at a concrete two-cell board with one blank and one
given. -/
theorem claim_C10_witness :
    (⟨[Cell.Empty, Cell.Fixed 5]⟩ : Sudoku).initialize_superpositions =
      some ⟨[Cell.Empty, Cell.Fixed 5].map initFull⟩ ∧
    initFull Cell.Empty = Cell.Superposition (List.replicate 9 true) ∧
    (∀ n, initFull (Cell.Fixed n) = Cell.Fixed n) :=
  (claim_C10 ⟨[Cell.Empty, Cell.Fixed 5]⟩).1 (by
    intro c hc
    rcases List.mem_cons.mp hc with h | h
    · exact Or.inl h
    · rcases List.mem_cons.mp h with h | h
      · exact Or.inr ⟨5, h⟩
      · simp at h)

/-- Claim C2: for every 9x9 input grid with entries 0..9 the solver, run
after initialize_superpositions, terminates (the recursion fuel is never
exhausted); moreover on an already fully-filled grid initialization
returns the board unchanged, the while-loop guard fails immediately,
solve returns the board with zero mutations, and is_solved is true. -/
theorem claim_C2 (g : List (List Nat)) (h9 : g.length = 9) (hr : ∀ r ∈ g, r.length = 9)
    (hv : ∀ r ∈ g, ∀ v ∈ r, v ≤ 9) :
    ∃ b, (Sudoku.from_zero_grid g).initialize_superpositions = some b ∧
      Sudoku.solve b ≠ SolveResult.outOfFuel ∧
      ((∀ r ∈ g, ∀ v ∈ r, v ≠ 0) →
        b = Sudoku.from_zero_grid g ∧ b.is_solved = true ∧
          Sudoku.solve b = SolveResult.ok b ∧
          ∀ fuel iters, Sudoku.solveLoop (fuel + 1) b iters = LoopResult.finished b) := by
  obtain ⟨hinit, hterm⟩ := solve_terminates g h9 hr
  refine ⟨⟨(Sudoku.from_zero_grid g).grid.map initFull⟩, hinit, hterm, ?_⟩
  intro hnz
  have hfixed := from_zero_grid_all_fixed g hnz
  have hmap := map_initFull_of_all_fixed (Sudoku.from_zero_grid g).grid hfixed
  have hb : (⟨(Sudoku.from_zero_grid g).grid.map initFull⟩ : Sudoku) =
      Sudoku.from_zero_grid g := by
    apply sudoku_eq_of_grid
    exact hmap
  have hsolved : (Sudoku.from_zero_grid g).is_solved = true :=
    is_solved_of_all_fixed _ hfixed
  rw [hb]
  refine ⟨rfl, hsolved, ?_, fun fuel iters => solveLoop_solved fuel _ iters hsolved⟩
  show Sudoku.solveAux solveFuel _ = _
  exact solveAux_solved 81 _ hsolved

/-- Witness for C2 at the concrete all-ones (fully filled) grid. -/
theorem claim_C2_witness :
    ∃ b, (Sudoku.from_zero_grid onesGrid).initialize_superpositions = some b ∧
      Sudoku.solve b ≠ SolveResult.outOfFuel ∧
      ((∀ r ∈ onesGrid, ∀ v ∈ r, v ≠ 0) →
        b = Sudoku.from_zero_grid onesGrid ∧ b.is_solved = true ∧
          Sudoku.solve b = SolveResult.ok b ∧
          ∀ fuel iters, Sudoku.solveLoop (fuel + 1) b iters = LoopResult.finished b) :=
  claim_C2 onesGrid (by decide) (by decide) (by decide)

/-- Claim C3: every given clue (Fixed cell) of the input board keeps its
exact value through initialize_superpositions and through solve however it
returns, and neither propagate nor solve_pure_negative ever mutates a
Fixed cell on any board. -/
theorem claim_C3 :
    (∀ (g : List (List Nat)) (b : Sudoku) (i v : Nat),
      (Sudoku.from_zero_grid g).initialize_superpositions = some b →
      (Sudoku.from_zero_grid g).getCell i = Cell.Fixed v →
      b.getCell i = Cell.Fixed v ∧
        (∀ fuel b2, Sudoku.solveAux fuel b = SolveResult.ok b2 →
          b2.getCell i = Cell.Fixed v) ∧
        (∀ b2, Sudoku.solve b = SolveResult.ok b2 → b2.getCell i = Cell.Fixed v)) ∧
    (∀ (b : Sudoku) (i v j : Nat), b.getCell i = Cell.Fixed v →
      (b.propagate j).getCell i = Cell.Fixed v ∧
        (b.solve_pure_negative j).getCell i = Cell.Fixed v) := by
  constructor
  · intro g b i v hinit hfix
    have h1 : b.getCell i = Cell.Fixed v :=
      init_fixed_pres (Sudoku.from_zero_grid g) b hinit i v hfix
    exact ⟨h1, fun fuel b2 hs => solveAux_ok_fixedPres fuel b b2 hs i v h1,
      fun b2 hs => solveAux_ok_fixedPres solveFuel b b2 hs i v h1⟩
  · intro b i v j h
    exact ⟨fixedPres_propagate b j i v h, fixedPres_spn b j i v h⟩

/-- Witness for C3 at the all-ones grid and the given at index 0. -/
theorem claim_C3_witness :
    bOnes.getCell 0 = Cell.Fixed 1 ∧
      (∀ fuel b2, Sudoku.solveAux fuel bOnes = SolveResult.ok b2 →
        b2.getCell 0 = Cell.Fixed 1) ∧
      (∀ b2, Sudoku.solve bOnes = SolveResult.ok b2 → b2.getCell 0 = Cell.Fixed 1) :=
  claim_C3.1 onesGrid bOnes 0 1 rfl rfl

/-- Counterexample to claim C5 as stated: the all-ones grid has two
identical givens in the same row, yet after initialize_superpositions and
solve the board reports is_solved = true (every cell is a given, so the
board is already fully determined and the contradiction is never
detected). -/
theorem claim_C5_cex :
    (∃ r ∈ onesGrid, ∃ i j, i < j ∧ j < r.length ∧ r.getD i 0 = r.getD j 0 ∧
      r.getD i 0 ≠ 0) ∧
    (Sudoku.from_zero_grid onesGrid).initialize_superpositions = some bOnes ∧
    Sudoku.solve bOnes = SolveResult.ok bOnes ∧ bOnes.is_solved = true := by
  refine ⟨⟨List.replicate 9 1, by decide, 0, 1, by decide, by decide, by decide, by decide⟩,
    rfl, rfl, rfl⟩

/-- Claim C5 (amended): for every input grid with two identical givens in
the same row, initialize_superpositions succeeds and solve terminates; the
claimed is_solved = false afterwards does not hold in general (see the
counterexample), so only termination is asserted. -/
theorem claim_C5 (g : List (List Nat)) (h9 : g.length = 9) (hr : ∀ r ∈ g, r.length = 9)
    (hdup : ∃ r ∈ g, ∃ i j, i < j ∧ j < r.length ∧ r.getD i 0 = r.getD j 0 ∧
      r.getD i 0 ≠ 0) :
    ∃ b, (Sudoku.from_zero_grid g).initialize_superpositions = some b ∧
      Sudoku.solve b ≠ SolveResult.outOfFuel := by
  obtain ⟨hinit, hterm⟩ := solve_terminates g h9 hr
  exact ⟨_, hinit, hterm⟩

/-- Witness for C5 at the all-ones grid. -/
theorem claim_C5_witness :
    ∃ b, (Sudoku.from_zero_grid onesGrid).initialize_superpositions = some b ∧
      Sudoku.solve b ≠ SolveResult.outOfFuel :=
  claim_C5 onesGrid (by decide) (by decide)
    ⟨List.replicate 9 1, by decide, 0, 1, by decide, by decide, by decide, by decide⟩

/-! ### Concrete solver run on the legal 80-given puzzle gHard -/

set_option maxRecDepth 10000 in
theorem solveHard_eval :
    (decide ((Sudoku.from_zero_grid gHard).initialize_superpositions = some bHard) &&
      match Sudoku.solve bHard with
      | SolveResult.ok b =>
          b.is_solved && decide (b.rowVals 0 = [1, 1, 3, 4, 5, 6, 7, 8, 9]) &&
            decide (b.getCell 0 = Cell.Collapsed 1) && decide (b.getCell 1 = Cell.Fixed 1)
      | _ => false) = true := by
  decide

/-- Claim C1: soundness of solved boards fails on the code.  For the legal
puzzle input gHard (a valid completed grid with the single cell (0,0)
blanked, whose unique solution there is 2) the solver reports
is_solved = true while row 0 of the result is [1,1,3,4,5,6,7,8,9]: the
first cell was collapsed to 1, duplicating the given 1 at (0,1), so the
row is not the set 1..9 with no repeats. -/
theorem claim_C1 :
    ∃ b b2, (Sudoku.from_zero_grid gHard).initialize_superpositions = some b ∧
      Sudoku.solve b = SolveResult.ok b2 ∧ b2.is_solved = true ∧
      b2.rowVals 0 = [1, 1, 3, 4, 5, 6, 7, 8, 9] ∧ ¬ (b2.rowVals 0).Nodup := by
  have hb := solveHard_eval
  rw [Bool.and_eq_true] at hb
  obtain ⟨hinit, hrest⟩ := hb
  have hinit2 : (Sudoku.from_zero_grid gHard).initialize_superpositions = some bHard :=
    of_decide_eq_true hinit
  refine ⟨bHard, ?_⟩
  cases hres : Sudoku.solve bHard with
  | outOfFuel =>
    rw [hres] at hrest
    have hf : (false : Bool) = true := hrest
    cases hf
  | panicked =>
    rw [hres] at hrest
    have hf : (false : Bool) = true := hrest
    cases hf
  | ok b2 =>
    rw [hres] at hrest
    have h2 : (b2.is_solved && decide (b2.rowVals 0 = [1, 1, 3, 4, 5, 6, 7, 8, 9]) &&
        decide (b2.getCell 0 = Cell.Collapsed 1) &&
        decide (b2.getCell 1 = Cell.Fixed 1)) = true := hrest
    rw [Bool.and_eq_true, Bool.and_eq_true, Bool.and_eq_true] at h2
    obtain ⟨⟨⟨hsolved, hrow⟩, hc0⟩, hc1⟩ := h2
    have hroweq := of_decide_eq_true hrow
    refine ⟨b2, hinit2, rfl, hsolved, hroweq, ?_⟩
    rw [hroweq]
    decide

/-- Claim C4: the easy-deduction scenario fails on the code.  The input
gHard has exactly one blank (80 givens), the peers of cell 0 cover
exactly the eight digits other than 2, so a correct solver must write 2
there; the code instead collapses cell 0 to 1 (the first candidate whose
row holds no other Superposition cell) and still reports the board
solved. -/
theorem claim_C4 :
    ((Sudoku.from_zero_grid gHard).grid.countP (fun c => decide (c = Cell.Empty)) = 1) ∧
    ((Sudoku.from_zero_grid gHard).grid.countP
      (fun c => match c with | Cell.Fixed _ => true | _ => false) = 80) ∧
    (2 ∉ (Sudoku.from_zero_grid gHard).peerDigits 0) ∧
    (∀ d ∈ ([1, 3, 4, 5, 6, 7, 8, 9] : List Nat),
      d ∈ (Sudoku.from_zero_grid gHard).peerDigits 0) ∧
    ∃ b b2, (Sudoku.from_zero_grid gHard).initialize_superpositions = some b ∧
      Sudoku.solve b = SolveResult.ok b2 ∧ b2.is_solved = true ∧
      b2.getCell 0 = Cell.Collapsed 1 ∧ (1 : Nat) ≠ 2 := by
  refine ⟨by decide, by decide, by decide, by decide, ?_⟩
  have hb := solveHard_eval
  rw [Bool.and_eq_true] at hb
  obtain ⟨hinit, hrest⟩ := hb
  have hinit2 : (Sudoku.from_zero_grid gHard).initialize_superpositions = some bHard :=
    of_decide_eq_true hinit
  refine ⟨bHard, ?_⟩
  cases hres : Sudoku.solve bHard with
  | outOfFuel =>
    rw [hres] at hrest
    have hf : (false : Bool) = true := hrest
    cases hf
  | panicked =>
    rw [hres] at hrest
    have hf : (false : Bool) = true := hrest
    cases hf
  | ok b2 =>
    rw [hres] at hrest
    have h2 : (b2.is_solved && decide (b2.rowVals 0 = [1, 1, 3, 4, 5, 6, 7, 8, 9]) &&
        decide (b2.getCell 0 = Cell.Collapsed 1) &&
        decide (b2.getCell 1 = Cell.Fixed 1)) = true := hrest
    rw [Bool.and_eq_true, Bool.and_eq_true, Bool.and_eq_true] at h2
    obtain ⟨⟨⟨hsolved, hrow⟩, hc0⟩, hc1⟩ := h2
    exact ⟨b2, hinit2, rfl, hsolved, of_decide_eq_true hc0, by decide⟩
